import Mathlib

/-!
Shallow embedding of the representation-polymorphic tensor unit in
`src/src/lib/mra/_sepreptensor.h` (the `GenTensor` handle, the abstract
`SepRepTensor` backend contract, the `FullTensor` and `LowRankTensor`
backends, the `SliceGenTensor` proxy, and the `to_full_rank` /
`to_low_rank` conversion functions; the `HAVE_GENTENSOR` branch is the
active one, since line 37 defines `HAVE_GENTENSOR 1`).

The external `Tensor` (dense array, `tensor/tensor.h`) and `SepRep`
(separated representation, `mra/seprep.h`) primitives are not part of the
sources under study; their observable behavior is modelled from the spec,
with exact rational arithmetic standing in for `double`.  Sharing matters
for the claims, so the embedding uses an explicit heap: dense buffers,
separated-representation payloads and backend objects live in stores, and
a `GenTensor` is exactly what it is in C++, a possibly-null shared pointer
to a backend object.  `MADNESS_ASSERT` / `MADNESS_EXCEPTION` failures and
the undefined behavior of dereferencing a null shared pointer are modelled
as distinct error outcomes; an operation result carries the final heap, so
"the operands were left unmodified" is expressible.
-/

/-- Element values of the tensors: exact rationals stand in for the C++ `double`. -/
abbrev Val := Rat

/-- The `TensorType` enumeration consumed by this unit (`TT_NONE`, `TT_FULL`,
`TT_2D`, `TT_3D`): the Representation Kinds. -/
inductive TensorType where
  | TT_NONE
  | TT_FULL
  | TT_2D
  | TT_3D
deriving DecidableEq

open TensorType

/-- Error outcomes of an operation.  `kindMismatch` is a `MADNESS_ASSERT`
comparing the two operands' tensor types; `assertFail` any other
`MADNESS_ASSERT(0)` / `MADNESS_EXCEPTION`; `nullDeref` the undefined behavior
of dereferencing a null `shared_ptr` (or a failed `dynamic_cast` followed by a
member access); `runtimeError` a thrown `std::runtime_error`; `badSlice` an
out-of-range slice handed to the external dense-array primitive;
`shapeMismatch` a shape-conformity precondition of an external kernel;
`badRef` a dangling store index (an artifact of the heap model, never produced
on well-formed inputs). -/
inductive Err where
  | kindMismatch
  | assertFail
  | nullDeref
  | runtimeError
  | badSlice
  | shapeMismatch
  | badRef
deriving DecidableEq

/-- Modelled from the spec: abstract numeric content of a dense array value, a
shape (ordered per-dimension extents) and a value for each index tuple.  The
default-constructed empty tensor is the one with shape `[]`. -/
structure TContent where
  shape : List Nat
  val : List Nat → Val

/-- All index tuples of a given shape, ordered lexicographically. -/
def indexSpace : List Nat → List (List Nat)
  | [] => [[]]
  | d :: ds => (List.range d).flatMap (fun i => (indexSpace ds).map (fun ix => i :: ix))

/-- Decidable content equality: same shape and same value at every index of the
shape. -/
def tcBeq (a b : TContent) : Bool :=
  decide (a.shape = b.shape) &&
    (indexSpace a.shape).all (fun ix => decide (a.val ix = b.val ix))

/-- Modelled from the spec: element count of a dense array
(`Tensor<T>::size()`); the default-constructed empty tensor has size 0. -/
def tcSize (t : TContent) : Nat :=
  if t.shape.isEmpty then 0 else t.shape.prod

/-- Modelled from the spec: number of dimensions of a dense array
(`Tensor<T>::ndim()`, a C++ `long`); the default-constructed empty tensor
reports -1. -/
def tcNdim (t : TContent) : Int :=
  if t.shape.isEmpty then -1 else (t.shape.length : Int)

/-- Modelled from the spec: in-place elementwise scaling of a dense array
(`Tensor<T>::operator*=`); also the model of `SepRep<T>::scale`. -/
def tcScale (x : Val) (t : TContent) : TContent :=
  ⟨t.shape, fun ix => t.val ix * x⟩

/-- Modelled from the spec: one per-dimension slice specification of the dense
array primitive, either the whole dimension (`Slice(_)`) or a
(start, stop, step) segment with exclusive stop. -/
inductive SliceSpec where
  | whole
  | seg (start stop step : Nat)
deriving DecidableEq

/-- Number of elements a slice specification selects from a dimension of
extent `d`. -/
def SliceSpec.len (d : Nat) : SliceSpec → Nat
  | .whole => d
  | .seg a b st => (b - a + st - 1) / st

/-- Modelled from the spec: a slice specification is within bounds for a
dimension of extent `d`. -/
def SliceSpec.ok (d : Nat) : SliceSpec → Bool
  | .whole => true
  | .seg a b st => decide (0 < st) && decide (a ≤ b) && decide (b ≤ d)

/-- Source index selected by position `i` of a slice specification. -/
def SliceSpec.src (s : SliceSpec) (i : Nat) : Nat :=
  match s with
  | .whole => i
  | .seg a _ st => a + i * st

/-- Whether index `j` of a dimension of extent `d` lies in the region a slice
specification addresses. -/
def SliceSpec.memB (d : Nat) (s : SliceSpec) (j : Nat) : Bool :=
  match s with
  | .whole => decide (j < d)
  | .seg a b st => decide (a ≤ j) && decide (j < b) && decide ((j - a) % st = 0)

/-- Position within the sliced region of an absolute index `j` that lies in the
region. -/
def SliceSpec.pos (s : SliceSpec) (j : Nat) : Nat :=
  match s with
  | .whole => j
  | .seg a _ st => (j - a) / st

/-- Shape of the sub-tensor addressed by a per-dimension slice list. -/
def sliceShape (shape : List Nat) (ss : List SliceSpec) : List Nat :=
  List.zipWith SliceSpec.len shape ss

/-- All per-dimension slice specifications are within bounds and there is one
per dimension. -/
def slicesOk (shape : List Nat) (ss : List SliceSpec) : Bool :=
  decide (ss.length = shape.length) &&
    (List.zip shape ss).all (fun p => SliceSpec.ok p.1 p.2)

/-- Source index tuple selected by a position tuple of the sliced region. -/
def sliceSrc (ss : List SliceSpec) (ix : List Nat) : List Nat :=
  List.zipWith SliceSpec.src ss ix

/-- Whether an absolute index tuple lies in the addressed region. -/
def regionMem (shape : List Nat) (ss : List SliceSpec) (ix : List Nat) : Bool :=
  decide (ix.length = shape.length) &&
    (List.zip (List.zip shape ss) ix).all (fun p => SliceSpec.memB p.1.1 p.1.2 p.2)

/-- Region-relative position tuple of an absolute index tuple. -/
def regionPos (ss : List SliceSpec) (ix : List Nat) : List Nat :=
  List.zipWith SliceSpec.pos ss ix

/-- Modelled from the spec: deep sliced read of a dense array value,
`copy(t(s))`; fails (external precondition) when a slice is out of bounds.
Also the model of the separated representation's sliced read `_data(s)`, which
the spec declares deep. -/
def tcSliceRead (t : TContent) (ss : List SliceSpec) : Option TContent :=
  if slicesOk t.shape ss then
    some ⟨sliceShape t.shape ss, fun ix => t.val (sliceSrc ss ix)⟩
  else none

/-- Modelled from the spec: whole-tensor in-place generalized saxpy of the
dense array primitive, `a.gaxpy(alpha, b, beta)` meaning
`a = a*alpha + b*beta`; requires conforming shapes. -/
def tcGaxpy (alpha : Val) (a : TContent) (beta : Val) (b : TContent) : Except Err TContent :=
  if a.shape = b.shape then
    .ok ⟨a.shape, fun ix => a.val ix * alpha + b.val ix * beta⟩
  else .error .shapeMismatch

/-- Modelled from the spec: sliced in-place generalized add,
`dst(lhs) = dst(lhs)*alpha + src(rhs)*beta`; this is the dense
`data(lhs_s) += rhs.data(rhs_s)` (with factors 1) and the separated
representation's `inplace_add(rhs, lhs_s, rhs_s, alpha, beta)`.  Fails when a
slice is out of bounds or the two addressed regions do not conform. -/
def tcSliceGaxpy (dst : TContent) (lhs : List SliceSpec) (alpha : Val)
    (src : TContent) (rhs : List SliceSpec) (beta : Val) : Except Err TContent :=
  if slicesOk dst.shape lhs then
    if slicesOk src.shape rhs then
      if sliceShape dst.shape lhs = sliceShape src.shape rhs then
        .ok ⟨dst.shape, fun ix =>
          if regionMem dst.shape lhs ix then
            dst.val ix * alpha + src.val (sliceSrc rhs (regionPos lhs ix)) * beta
          else dst.val ix⟩
      else .error .shapeMismatch
    else .error .badSlice
  else .error .badSlice

/-- Modelled from the spec: conjugate inner product of two dense arrays
(`Tensor<T>::trace_conj`; conjugation is the identity on real scalars), and of
two separated representations (`overlap`). -/
def tcInner (a b : TContent) : Val :=
  ((indexSpace a.shape).map (fun ix => a.val ix * b.val ix)).sum

/-- Modelled from the spec: the dense array's dimension swap
(`Tensor<T>::swapdim`), used by `FullTensor<T>::swapdim` (source lines
1040-1043) — implemented there, but unreachable through the public handle. -/
def tcSwapdim (i j : Nat) (t : TContent) : TContent :=
  ⟨(t.shape.set i (t.shape.getD j 0)).set j (t.shape.getD i 0),
   fun ix => t.val ((ix.set i (ix.getD j 0)).set j (ix.getD i 0))⟩

/-- Modelled from the spec: observable state of the external separated
representation (`SepRep<T>`): its tensor type, its validity flag
(`is_valid()`), and the numeric content it represents.  The model idealizes
the factorization engine as exact: constructing a `SepRep` from a dense array
at accuracy `eps > 0` represents that content exactly, so every
accuracy-bounded statement of the spec holds with error 0. -/
structure SepVal where
  tt : TensorType
  valid : Bool
  content : TContent

/-- A concrete backend object: `FullTensor<T>` wraps a reference to a dense
array buffer (madness `Tensor` has shallow copy semantics, hence a reference);
`LowRankTensor<T>` wraps a reference to a `SepRep` payload (also shallow). -/
inductive Backend where
  | full (tref : Nat)
  | low (sref : Nat)
deriving DecidableEq

/-- The store of all allocated dense buffers, separated-representation
payloads, and backend objects. -/
structure Heap where
  bufs : List TContent
  seps : List SepVal
  backs : List Backend

/-- The public handle (`GenTensor<T>`): a possibly-null shared pointer `_ptr`
to a backend object (source line 188). -/
structure GenTensor where
  ptr : Option Nat
deriving DecidableEq

def Heap.getBuf (h : Heap) (i : Nat) : Option TContent := h.bufs[i]?

def Heap.setBuf (h : Heap) (i : Nat) (t : TContent) : Heap :=
  { h with bufs := h.bufs.set i t }

def Heap.allocBuf (h : Heap) (t : TContent) : Heap × Nat :=
  ({ h with bufs := h.bufs ++ [t] }, h.bufs.length)

def Heap.getSep (h : Heap) (i : Nat) : Option SepVal := h.seps[i]?

def Heap.setSep (h : Heap) (i : Nat) (s : SepVal) : Heap :=
  { h with seps := h.seps.set i s }

def Heap.allocSep (h : Heap) (s : SepVal) : Heap × Nat :=
  ({ h with seps := h.seps ++ [s] }, h.seps.length)

def Heap.getBack (h : Heap) (i : Nat) : Option Backend := h.backs[i]?

def Heap.allocBack (h : Heap) (b : Backend) : Heap × Nat :=
  ({ h with backs := h.backs ++ [b] }, h.backs.length)

/-- Result of an operation: the value produced and the final heap, or the
error aborting it and the heap at the moment of the abort (so that "the
operands were left unmodified by the failed call" is a statement about that
heap). -/
inductive Res (α : Type) where
  | ok (a : α) (h : Heap)
  | err (e : Err) (h : Heap)

def Res.errOf {α : Type} : Res α → Option Err
  | .ok _ _ => none
  | .err e _ => some e

def Res.valOf {α : Type} : Res α → Option α
  | .ok a _ => some a
  | .err _ _ => none

/-- The tensor type of a backend object: `FullTensor::type()` returns
`TT_FULL` (source line 1006); `LowRankTensor::type()` returns
`_data.tensor_type()` (source line 769). -/
def bkTypeO (bk : Backend) (h : Heap) : Option TensorType :=
  match bk with
  | .full _ => some TT_FULL
  | .low s => (h.getSep s).map SepVal.tt

/-- GenTensor::type() (source lines 420-423): `TT_NONE` for a null `_ptr`,
otherwise the backend's type. -/
def typeO (g : GenTensor) (h : Heap) : Option TensorType :=
  match g.ptr with
  | none => some TT_NONE
  | some b => (h.getBack b).bind (fun bk => bkTypeO bk h)

/-- GenTensor::has_data() (source lines 408-411): `false` for a null `_ptr`;
`FullTensor::has_data()` is `size()!=0` (line 1020); `LowRankTensor::has_data()`
is `_data.is_valid()` (line 790). -/
def hasDataO (g : GenTensor) (h : Heap) : Option Bool :=
  match g.ptr with
  | none => some false
  | some b =>
    (h.getBack b).bind (fun bk =>
      match bk with
      | .full t => (h.getBuf t).map (fun tc => decide (tcSize tc ≠ 0))
      | .low s => (h.getSep s).map SepVal.valid)

/-- GenTensor::size() (source lines 414-417): 0 for a null `_ptr`;
`FullTensor::size()` is `data.size()` (line 1023); `LowRankTensor::size()`
(lines 793-796) is 0 without data, else the coefficient count `_data.nCoeff()`
(modelled from the spec as the element count). -/
def sizeO (g : GenTensor) (h : Heap) : Option Nat :=
  match g.ptr with
  | none => some 0
  | some b =>
    (h.getBack b).bind (fun bk =>
      match bk with
      | .full t => (h.getBuf t).map tcSize
      | .low s => (h.getSep s).map (fun sv => if sv.valid then tcSize sv.content else 0))

/-- GenTensor::ndim() (source lines 435-438): -1 for a null `_ptr`;
`FullTensor::ndim()` is `data.ndim()` (line 1026); `LowRankTensor::ndim()` is
`_data.dim()` (line 800, modelled from the spec as the number of dimensions of
the represented content). -/
def ndimO (g : GenTensor) (h : Heap) : Option Int :=
  match g.ptr with
  | none => some (-1)
  | some b =>
    (h.getBack b).bind (fun bk =>
      match bk with
      | .full t => (h.getBuf t).map tcNdim
      | .low s => (h.getSep s).map (fun sv => (sv.content.shape.length : Int)))

def liftO {α : Type} (o : Option α) (h : Heap) : Res α :=
  match o with
  | some a => .ok a h
  | none => .err .badRef h

/-- GenTensor::type() as an operation. -/
def genTypeR (g : GenTensor) (h : Heap) : Res TensorType := liftO (typeO g h) h

/-- GenTensor::has_data() as an operation. -/
def genHasData (g : GenTensor) (h : Heap) : Res Bool := liftO (hasDataO g h) h

/-- GenTensor::size() as an operation. -/
def genSize (g : GenTensor) (h : Heap) : Res Nat := liftO (sizeO g h) h

/-- GenTensor::ndim() as an operation. -/
def genNdim (g : GenTensor) (h : Heap) : Res Int := liftO (ndimO g h) h

/-- The numeric content a handle currently denotes: the dense buffer of a
`FullTensor` backend, or the content represented by the `SepRep` payload of a
`LowRankTensor` backend.  (Observation function of the model, used to state
the claims.) -/
def contentO (g : GenTensor) (h : Heap) : Option TContent :=
  match g.ptr with
  | none => none
  | some b =>
    match h.getBack b with
    | some (.full t) => h.getBuf t
    | some (.low s) => (h.getSep s).map SepVal.content
    | none => none

/-- Decidable observation: the handle's content equals `c` up to pointwise
equality on the shape. -/
def contentIs (g : GenTensor) (h : Heap) (c : TContent) : Bool :=
  match contentO g h with
  | some c2 => tcBeq c2 c
  | none => false

/-- The empty constructor `GenTensor()` (source line 193): a null `_ptr`. -/
def genEmptyCtor : GenTensor := ⟨none⟩

/-- The copy constructor `GenTensor(const GenTensor&)` (source lines 201-203):
shallow, the new handle holds the same `_ptr`. -/
def genCopyCtor (rhs : GenTensor) : GenTensor := rhs

/-- The shallow assignment `operator=(const GenTensor&)` (source lines
253-257): the left handle ends up holding the right handle's `_ptr`. -/
def genAssign (_lhs rhs : GenTensor) : GenTensor := rhs

/-- The default-kind constructor `GenTensor(const TensorType tt)` (source
lines 196-199): a fresh empty `FullTensor` for `TT_FULL`, otherwise a fresh
`LowRankTensor(tt)` wrapping an invalid `SepRep(tt)`. -/
def genFromTT (tt : TensorType) (h : Heap) : Heap × GenTensor :=
  if tt = TT_FULL then
    let p1 := h.allocBuf ⟨[], fun _ => 0⟩
    let p2 := p1.1.allocBack (.full p1.2)
    (p2.1, ⟨some p2.2⟩)
  else
    let p1 := h.allocSep ⟨tt, false, ⟨[], fun _ => 0⟩⟩
    let p2 := p1.1.allocBack (.low p1.2)
    (p2.1, ⟨some p2.2⟩)

/-- The deep constructor from a regular tensor,
`GenTensor(const Tensor<T>& rhs, double eps, const TensorType tt)` (source
lines 233-241): for `TT_FULL` a fresh `FullTensor(copy(rhs))` (an independent
buffer); for `TT_2D`/`TT_3D`, `MADNESS_ASSERT(eps>0.0)` and a fresh
`LowRankTensor(rhs, eps, tt)` whose `SepRep` factorizes the content (both the
contiguous and the non-contiguous branch build an independent payload); for
any other kind no branch is taken and `_ptr` stays null. -/
def genFromTensor (tref : Nat) (eps : Val) (tt : TensorType) (h : Heap) : Res GenTensor :=
  if tt = TT_FULL then
    match h.getBuf tref with
    | none => .err .badRef h
    | some tc =>
      let p1 := h.allocBuf tc
      let p2 := p1.1.allocBack (.full p1.2)
      .ok ⟨some p2.2⟩ p2.1
  else if tt = TT_3D ∨ tt = TT_2D then
    if 0 < eps then
      match h.getBuf tref with
      | none => .err .badRef h
      | some tc =>
        let p1 := h.allocSep ⟨tt, true, tc⟩
        let p2 := p1.1.allocBack (.low p1.2)
        .ok ⟨some p2.2⟩ p2.1
    else .err .assertFail h
  else .ok ⟨none⟩ h

/-- The deep copy free function `copy(const GenTensor&)` (source lines
266-270): an empty handle for an empty argument, otherwise a fresh backend
built by `copy_this()` — `FullTensor::copy_this` copies the dense buffer
(lines 1001-1003), `LowRankTensor::copy_this` deep-copies the `SepRep`
payload (lines 759-761). -/
def genCopy (g : GenTensor) (h : Heap) : Res GenTensor :=
  match g.ptr with
  | none => .ok ⟨none⟩ h
  | some b =>
    match h.getBack b with
    | none => .err .badRef h
    | some (.full t) =>
      match h.getBuf t with
      | none => .err .badRef h
      | some tc =>
        let p1 := h.allocBuf tc
        let p2 := p1.1.allocBack (.full p1.2)
        .ok ⟨some p2.2⟩ p2.1
    | some (.low s) =>
      match h.getSep s with
      | none => .err .badRef h
      | some sv =>
        let p1 := h.allocSep sv
        let p2 := p1.1.allocBack (.low p1.2)
        .ok ⟨some p2.2⟩ p2.1

/-- The slice proxy `SliceGenTensor<T>` (source lines 521-584): a back
reference to the sliced handle and the per-dimension slice list. -/
structure SliceGenTensor where
  refGT : GenTensor
  s : List SliceSpec

/-- The slicing operator `GenTensor::operator()(const std::vector<Slice>&)`
(source lines 273-280): shallow, just packages the handle and the slices. -/
def genSliceOp (g : GenTensor) (ss : List SliceSpec) : SliceGenTensor := ⟨g, ss⟩

/-- The deep slice assignment `operator=(const SliceGenTensor&)` (source lines
260-264), also the `GenTensor(const SliceGenTensor&)` constructor (lines
244-246, which delegates to it): rebinds to `clone(rhs._s)` of the sliced
handle's backend — `FullTensor::clone(s)` is `FullTensor(copy(data(s)))`
(lines 996-998 with 976-979), `LowRankTensor::clone(s)` is
`LowRankTensor(_data(s))` (lines 748-750), a deep sliced payload. -/
def genAssignSlice (sl : SliceGenTensor) (h : Heap) : Res GenTensor :=
  match sl.refGT.ptr with
  | none => .err .nullDeref h
  | some b =>
    match h.getBack b with
    | none => .err .badRef h
    | some (.full t) =>
      match h.getBuf t with
      | none => .err .badRef h
      | some tc =>
        match tcSliceRead tc sl.s with
        | none => .err .badSlice h
        | some rc =>
          let p1 := h.allocBuf rc
          let p2 := p1.1.allocBack (.full p1.2)
          .ok ⟨some p2.2⟩ p2.1
    | some (.low s) =>
      match h.getSep s with
      | none => .err .badRef h
      | some sv =>
        match tcSliceRead sv.content sl.s with
        | none => .err .badSlice h
        | some rc =>
          let p1 := h.allocSep ⟨sv.tt, sv.valid, rc⟩
          let p2 := p1.1.allocBack (.low p1.2)
          .ok ⟨some p2.2⟩ p2.1

/-- GenTensor::scale (source lines 463-468): a no-op on a null `_ptr`
(`if (_ptr) _ptr->scale(x)`); `FullTensor::scale` is `data*=a` (line 1052),
mutating the shared buffer; `LowRankTensor::scale` is `_data.scale(a)`
(line 851), mutating the shared payload. -/
def genScale (g : GenTensor) (x : Val) (h : Heap) : Res Unit :=
  match g.ptr with
  | none => .ok () h
  | some b =>
    match h.getBack b with
    | none => .err .badRef h
    | some (.full t) =>
      match h.getBuf t with
      | none => .err .badRef h
      | some tc => .ok () (h.setBuf t (tcScale x tc))
    | some (.low s) =>
      match h.getSep s with
      | none => .err .badRef h
      | some sv => .ok () (h.setSep s ⟨sv.tt, sv.valid, tcScale x sv.content⟩)

/-- Backend-level accumulate, dispatched on the SOURCE backend as in
`rhs.accumulate_into(*this, fac)`.  `FullTensor::accumulate_into` (source
lines 1088-1093) asserts type equality, casts the target and performs
`rhs2->data.gaxpy(1.0, this->data, fac)`; `LowRankTensor::accumulate_into`
(lines 876-879) performs an unchecked `dynamic_cast` of the target — a dense
target is a failed cast whose result is dereferenced (`other->_data`), i.e. a
null dereference — and then `_data.accumulate_into(other->_data, fac)`,
modelled from the spec as adding `fac` times the source content. -/
def bkAccumulateInto (bsrc bdst : Backend) (fac : Val) (h : Heap) : Res Unit :=
  match bsrc with
  | .full tsrc =>
    match bkTypeO bdst h with
    | none => .err .badRef h
    | some tyd =>
      if TT_FULL = tyd then
        match bdst with
        | .full tdst =>
          match h.getBuf tsrc, h.getBuf tdst with
          | some csrc, some cdst =>
            match tcGaxpy 1 cdst fac csrc with
            | .ok c2 => .ok () (h.setBuf tdst c2)
            | .error e => .err e h
          | _, _ => .err .badRef h
        | .low _ => .err .nullDeref h
      else .err .kindMismatch h
  | .low ssrc =>
    match bdst with
    | .full _ => .err .nullDeref h
    | .low sdst =>
      match h.getSep ssrc, h.getSep sdst with
      | some svs, some svd =>
        match tcGaxpy 1 svd.content fac svs.content with
        | .ok c2 => .ok () (h.setSep sdst ⟨svd.tt, svd.valid, c2⟩)
        | .error e => .err e h
      | _, _ => .err .badRef h

/-- The in-place addition `GenTensor::operator+=(const GenTensor&)` (source
lines 288-299): it evaluates `this->_ptr->type()` and `rhs._ptr->type()` —
dereferencing the raw pointers, so an empty operand is a null dereference —
then `MADNESS_ASSERT`s their equality, and only then performs
`rhs.accumulate_into(*this, 1.0)`. -/
def genPlusEq (a b : GenTensor) (h : Heap) : Res Unit :=
  match a.ptr with
  | none => .err .nullDeref h
  | some ba =>
    match h.getBack ba with
    | none => .err .badRef h
    | some bka =>
      match b.ptr with
      | none => .err .nullDeref h
      | some bb =>
        match h.getBack bb with
        | none => .err .badRef h
        | some bkb =>
          match bkTypeO bka h, bkTypeO bkb h with
          | some tya, some tyb =>
            if tya = tyb then bkAccumulateInto bkb bka 1 h
            else .err .kindMismatch h
          | _, _ => .err .badRef h

/-- Backend-level gaxpy `this = this*alpha + rhs*beta`.
`FullTensor::gaxpy` (source lines 982-988) asserts type equality (evaluating
`rhs->type()`, a null dereference for a null pointer), casts, and calls
`data.gaxpy(alpha, t->data, beta)`.  `LowRankTensor::gaxpy` (lines 838-848)
asserts type equality, then dimension-count equality, casts, and calls
`_data.inplace_add(t->_data, s, s, alpha, beta)` with full slices. -/
def bkGaxpy (bka : Backend) (alpha : Val) (b : GenTensor) (beta : Val) (h : Heap) : Res Unit :=
  match b.ptr with
  | none => .err .nullDeref h
  | some bb =>
    match h.getBack bb with
    | none => .err .badRef h
    | some bkb =>
      match bkTypeO bkb h with
      | none => .err .badRef h
      | some tyb =>
        match bka with
        | .full t =>
          if TT_FULL = tyb then
            match bkb with
            | .full t2 =>
              match h.getBuf t, h.getBuf t2 with
              | some ca, some cb =>
                match tcGaxpy alpha ca beta cb with
                | .ok c2 => .ok () (h.setBuf t c2)
                | .error e => .err e h
              | _, _ => .err .badRef h
            | .low _ => .err .nullDeref h
          else .err .kindMismatch h
        | .low s =>
          match h.getSep s with
          | none => .err .badRef h
          | some sva =>
            if sva.tt = tyb then
              match ndimO b h with
              | none => .err .badRef h
              | some nb =>
                if (sva.content.shape.length : Int) = nb then
                  match bkb with
                  | .low s2 =>
                    match h.getSep s2 with
                    | none => .err .badRef h
                    | some svb =>
                      let fs := List.replicate sva.content.shape.length SliceSpec.whole
                      match tcSliceGaxpy sva.content fs alpha svb.content fs beta with
                      | .ok c2 => .ok () (h.setSep s ⟨sva.tt, sva.valid, c2⟩)
                      | .error e => .err e h
                  | .full _ => .err .nullDeref h
                else .err .shapeMismatch h
            else .err .kindMismatch h

/-- The handle-level gaxpy `GenTensor::gaxpy(double alpha, const GenTensor&,
double beta)` (source lines 379-382): dereferences `this->_ptr` (null
dereference on an empty handle) and dispatches to the backend. -/
def genGaxpy (a : GenTensor) (alpha : Val) (b : GenTensor) (beta : Val) (h : Heap) : Res Unit :=
  match a.ptr with
  | none => .err .nullDeref h
  | some ba =>
    match h.getBack ba with
    | none => .err .badRef h
    | some bka => bkGaxpy bka alpha b beta h

/-- GenTensor::trace_conj (source lines 454-457): `MADNESS_ASSERT`s equality
of the two handles' `type()` (the null-safe `GenTensor::type()`), then calls
`_ptr->trace_conj(rhs._ptr.get())` — a null dereference when `this` is empty.
`FullTensor::trace_conj` (lines 1046-1049) casts the argument and computes the
dense trace; `LowRankTensor::trace_conj` (lines 826-830) casts and computes
the separated `overlap`; both conjugate inner products require conforming
shapes (external precondition). -/
def genTraceConj (a b : GenTensor) (h : Heap) : Res Val :=
  match typeO a h, typeO b h with
  | some tya, some tyb =>
    if tya = tyb then
      match a.ptr with
      | none => .err .nullDeref h
      | some ba =>
        match h.getBack ba with
        | none => .err .badRef h
        | some (.full t) =>
          match b.ptr with
          | none => .err .nullDeref h
          | some bb =>
            match h.getBack bb with
            | none => .err .badRef h
            | some (.full t2) =>
              match h.getBuf t, h.getBuf t2 with
              | some ca, some cb =>
                if ca.shape = cb.shape then .ok (tcInner ca cb) h
                else .err .shapeMismatch h
              | _, _ => .err .badRef h
            | some (.low _) => .err .nullDeref h
        | some (.low s) =>
          match b.ptr with
          | none => .err .nullDeref h
          | some bb =>
            match h.getBack bb with
            | none => .err .badRef h
            | some (.low s2) =>
              match h.getSep s, h.getSep s2 with
              | some sva, some svb =>
                if sva.content.shape = svb.content.shape then
                  .ok (tcInner sva.content svb.content) h
                else .err .shapeMismatch h
              | _, _ => .err .badRef h
            | some (.full _) => .err .nullDeref h
    else .err .kindMismatch h
  | _, _ => .err .badRef h

/-- The private `GenTensor::inplace_add(rhs, lhs_s, rhs_s)` (source lines
509-514): `this->_ptr->inplace_add(rhs._ptr.get(), lhs_s, rhs_s)`.
`FullTensor::inplace_add` (lines 1098-1107) asserts type equality, casts, and
performs `this->data(lhs_s) += rhs2->data(rhs_s)`; `LowRankTensor::inplace_add`
(lines 886-895) asserts type equality, casts, and performs
`_data.inplace_add(rhs2->_data, lhs_s, rhs_s, 1.0, 1.0)`. -/
def genInplaceAdd (a b : GenTensor) (lhs rhs : List SliceSpec) (h : Heap) : Res Unit :=
  match a.ptr with
  | none => .err .nullDeref h
  | some ba =>
    match h.getBack ba with
    | none => .err .badRef h
    | some bka =>
      match b.ptr with
      | none => .err .nullDeref h
      | some bb =>
        match h.getBack bb with
        | none => .err .badRef h
        | some bkb =>
          match bkTypeO bkb h with
          | none => .err .badRef h
          | some tyb =>
            match bka with
            | .full t =>
              if TT_FULL = tyb then
                match bkb with
                | .full t2 =>
                  match h.getBuf t, h.getBuf t2 with
                  | some ca, some cb =>
                    match tcSliceGaxpy ca lhs 1 cb rhs 1 with
                    | .ok c2 => .ok () (h.setBuf t c2)
                    | .error e => .err e h
                  | _, _ => .err .badRef h
                | .low _ => .err .nullDeref h
              else .err .kindMismatch h
            | .low s =>
              match h.getSep s with
              | none => .err .badRef h
              | some sva =>
                if sva.tt = tyb then
                  match bkb with
                  | .low s2 =>
                    match h.getSep s2 with
                    | none => .err .badRef h
                    | some svb =>
                      match tcSliceGaxpy sva.content lhs 1 svb.content rhs 1 with
                      | .ok c2 => .ok () (h.setSep s ⟨sva.tt, sva.valid, c2⟩)
                      | .error e => .err e h
                  | .full _ => .err .nullDeref h
                else .err .kindMismatch h

/-- The slice-proxy zero assignment `SliceGenTensor::operator=(const double&)`
(source lines 569-577): `MADNESS_ASSERT(number==0.0)`, then
`GenTensor tmp = *this` (a deep sliced copy), an extra `tmp = copy(tmp)` when
the sliced handle is `TT_FULL`, `tmp.scale(-1.0)`, and finally
`_refGT.inplace_add(tmp, _s, _s)` — note that the slice-sized temporary is
sliced AGAIN by `_s` on the right-hand side. -/
def sliceAssignZero (sl : SliceGenTensor) (number : Val) (h : Heap) : Res Unit :=
  if number = 0 then
    match genAssignSlice sl h with
    | .err e h1 => .err e h1
    | .ok tmp h1 =>
      match typeO sl.refGT h1 with
      | none => .err .badRef h1
      | some ty =>
        match (if ty = TT_FULL then genCopy tmp h1 else .ok tmp h1) with
        | .err e h2 => .err e h2
        | .ok tmp2 h2 =>
          match genScale tmp2 (-1) h2 with
          | .err e h3 => .err e h3
          | .ok _ h3 => genInplaceAdd sl.refGT tmp2 sl.s sl.s h3
  else .err .assertFail h

/-- The matching-scalar multiplication `GenTensor::operator*(const T& x)`
(source lines 333-338): `GenTensor result(copy(*this)); result.scale(x);
return result;`. -/
def genMulScalar (g : GenTensor) (x : Val) (h : Heap) : Res GenTensor :=
  match genCopy g h with
  | .err e h1 => .err e h1
  | .ok r h1 =>
    match genScale r x h1 with
    | .err e h2 => .err e h2
    | .ok _ h2 => .ok r h2

/-- The heterogeneous-scalar multiplication template
`GenTensor::operator*<Q>(const Q& x)` selected when the scalar type `Q`
differs from the element type `T` (source lines 324-331, here `Q` = `Int`
versus the element type `Val`): it prints a diagnostic and fails with
`MADNESS_ASSERT(0)`; the construction of a result after the assert is dead
code. -/
def genMulScalarHetero (_g : GenTensor) (_x : Int) (h : Heap) : Res GenTensor :=
  .err .assertFail h

/-- GenTensor::swapdim (source lines 446-450): it prints a diagnostic and
fails with `MADNESS_ASSERT(0)` unconditionally, for every handle and every
pair of dimension arguments; the dispatch `return this->_ptr->swapdim(idim,
jdim)` on line 449 is dead code, so `FullTensor::swapdim` (lines 1040-1043,
implemented via the dense primitive, see `tcSwapdim`) is unreachable from the
handle. -/
def genSwapdim (_g : GenTensor) (_idim _jdim : Int) (h : Heap) : Res GenTensor :=
  .err .assertFail h

/-- GenTensor::reconstruct_tensor (source lines 482-484):
`_ptr->reconstructTensor()`.  `FullTensor` does not override the base-class
virtual, which fails with `MADNESS_ASSERT(0)` (lines 645-648);
`LowRankTensor::reconstructTensor` (lines 809-813) asserts
`_data.is_valid()` and materializes a fresh dense tensor from the payload. -/
def genReconstructTensor (g : GenTensor) (h : Heap) : Res Nat :=
  match g.ptr with
  | none => .err .nullDeref h
  | some b =>
    match h.getBack b with
    | none => .err .badRef h
    | some (.full _) => .err .assertFail h
    | some (.low s) =>
      match h.getSep s with
      | none => .err .badRef h
      | some sv =>
        if sv.valid then
          let p1 := h.allocBuf sv.content
          .ok p1.2 p1.1
        else .err .assertFail h

/-- GenTensor::full_tensor (source lines 477-479): `_ptr->fullTensor()`, a
REFERENCE to the dense backend's buffer (`FullTensor::fullTensor`, line 1032);
`LowRankTensor::fullTensor` fails with a `MADNESS_EXCEPTION` (lines 816-823). -/
def genFullTensorRef (g : GenTensor) (h : Heap) : Res Nat :=
  match g.ptr with
  | none => .err .nullDeref h
  | some b =>
    match h.getBack b with
    | none => .err .badRef h
    | some (.full t) => .ok t h
    | some (.low _) => .err .assertFail h

/-- The conversion `to_full_rank(GenTensor&)` (source lines 1124-1143): with
data and `TT_FULL` it does nothing; with data and `TT_3D` it reconstructs and
rebinds to `GenTensor(t, 0.0, TT_FULL)`; with data and ANY OTHER type —
including `TT_2D` — it throws `std::runtime_error("unknown TensorType in
to_full_tensor")`; without data it rebinds to `GenTensor(TT_FULL)`. -/
def to_full_rank (g : GenTensor) (h : Heap) : Res GenTensor :=
  match hasDataO g h with
  | none => .err .badRef h
  | some true =>
    match typeO g h with
    | none => .err .badRef h
    | some ty =>
      if ty = TT_FULL then .ok g h
      else if ty = TT_3D then
        match genReconstructTensor g h with
        | .err e h1 => .err e h1
        | .ok t h1 => genFromTensor t 0 TT_FULL h1
      else .err .runtimeError h
  | some false =>
    let p := genFromTT TT_FULL h
    .ok p.2 p.1

/-- The conversion `to_low_rank(GenTensor&, eps, target_type)` (source lines
1145-1163): with data and `TT_FULL` it takes a reference to the dense buffer
and rebinds to `GenTensor(t1, eps, target_type)`; with data and `TT_3D` it
does nothing (whatever the target kind); with data and ANY OTHER type —
including `TT_2D` — it throws `std::runtime_error`; without data it rebinds to
`GenTensor(target_type)`. -/
def to_low_rank (g : GenTensor) (eps : Val) (target : TensorType) (h : Heap) : Res GenTensor :=
  match hasDataO g h with
  | none => .err .badRef h
  | some true =>
    match typeO g h with
    | none => .err .badRef h
    | some ty =>
      if ty = TT_FULL then
        match genFullTensorRef g h with
        | .err e h1 => .err e h1
        | .ok t h1 => genFromTensor t eps target h1
      else if ty = TT_3D then .ok g h
      else .err .runtimeError h
  | some false =>
    let p := genFromTT target h
    .ok p.2 p.1

/-- Specification-side description of the expected result of `h(s) = 0` in the
claim: the original content with the addressed region set to zero and every
element outside the region unchanged. -/
def zeroSliceRegion (c : TContent) (ss : List SliceSpec) : TContent :=
  ⟨c.shape, fun ix => if regionMem c.shape ss ix then 0 else c.val ix⟩

/-- A per-dimension slice specification that survives re-application to the
sub-tensor it extracts: the whole dimension, or a zero-based segment that has
unit step or selects at most one element.  These are exactly the per-dimension
specifications for which re-slicing the extracted sub-dimension by the same
specification is again in range (see `reslicableOk_ok` and
`reslicableOk_neg`). -/
def reslicableOk : SliceSpec → Bool
  | .whole => true
  | .seg a b st => decide (a = 0) && (decide (st = 1) || decide (b ≤ 1))

/-- Every per-dimension slice specification of the list survives
re-application (see `reslicableOk`). -/
def reslicable (ss : List SliceSpec) : Bool :=
  ss.all reslicableOk

/-- Observation: the mutation completed and left the handle with content `c`. -/
def resContentIs (r : Res Unit) (g : GenTensor) (c : TContent) : Bool :=
  match r with
  | .ok _ h => contentIs g h c
  | .err _ _ => false

/-- Observation: the operation produced a handle whose content is `c`. -/
def resGenContentIs (r : Res GenTensor) (c : TContent) : Bool :=
  match r with
  | .ok g h => contentIs g h c
  | .err _ _ => false

/-- Observation: the operation produced a handle of type `ty`. -/
def resGenTypeIs (r : Res GenTensor) (ty : TensorType) : Bool :=
  match r with
  | .ok g h => decide (typeO g h = some ty)
  | .err _ _ => false

/-- Observation: the `has_data()` flag of a produced handle. -/
def resGenHasData (r : Res GenTensor) : Option Bool :=
  match r with
  | .ok g h => hasDataO g h
  | .err _ _ => none

/-- The round trip of claim C7: `a += b` followed by the in-place subtraction
the handle provides, `a.gaxpy(1.0, b, -1.0)` (the unit defines no
`operator-=`; `gaxpy` with factors 1 and -1 is its subtract-in-place). -/
def addThenSub (a b : GenTensor) (h : Heap) : Res Unit :=
  match genPlusEq a b h with
  | .err e h1 => .err e h1
  | .ok _ h1 => genGaxpy a 1 b (-1) h1

/-- Constant-valued test content. -/
def mkTC (shape : List Nat) (v : Val) : TContent := ⟨shape, fun _ => v⟩

def hC1x : Heap := ⟨[mkTC [2] 5], [], [.full 0]⟩

def gC1empty : GenTensor := ⟨none⟩

def gC1full : GenTensor := ⟨some 0⟩

def hC1w : Heap := ⟨[mkTC [2] 1], [⟨TT_3D, true, mkTC [2] 2⟩], [.full 0, .low 0]⟩

def gC1a : GenTensor := ⟨some 0⟩

def gC1b : GenTensor := ⟨some 1⟩

def tcC2 : TContent := mkTC [2] 3

def hC2 : Heap := ⟨[tcC2], [], [.full 0]⟩

def gC2 : GenTensor := ⟨some 0⟩

def tcC3 : TContent := mkTC [2] 7

def hC3 : Heap := ⟨[tcC3], [], [.full 0]⟩

def gC3 : GenTensor := ⟨some 0⟩

def hC4x : Heap := ⟨[], [⟨TT_2D, true, mkTC [2] 1⟩], [.low 0]⟩

def gC4x : GenTensor := ⟨some 0⟩

def tcC4 : TContent := mkTC [2] 4

def hC4w : Heap := ⟨[], [⟨TT_3D, true, tcC4⟩], [.low 0]⟩

def gC4w : GenTensor := ⟨some 0⟩

def hC5x : Heap := ⟨[], [⟨TT_2D, true, mkTC [2] 2⟩], [.low 0]⟩

def gC5x : GenTensor := ⟨some 0⟩

def tcC5 : TContent := mkTC [2] 6

def hC5w : Heap := ⟨[tcC5], [], [.full 0]⟩

def gC5w : GenTensor := ⟨some 0⟩

def tcC6x : TContent := mkTC [4] 1

def hC6x : Heap := ⟨[tcC6x], [], [.full 0]⟩

def gC6x : GenTensor := ⟨some 0⟩

def ssC6x : List SliceSpec := [.seg 2 4 1]

def tcC6w : TContent := mkTC [4] 5

def hC6w : Heap := ⟨[tcC6w], [], [.full 0]⟩

def gC6w : GenTensor := ⟨some 0⟩

def ssC6w : List SliceSpec := [.seg 0 1 2]

def tcC7x : TContent := mkTC [1] 1

def hC7x : Heap := ⟨[tcC7x], [], [.full 0]⟩

def gC7x : GenTensor := ⟨some 0⟩

def tcC7a : TContent := mkTC [1] 3

def tcC7b : TContent := mkTC [1] 5

def hC7w : Heap := ⟨[tcC7a, tcC7b], [], [.full 0, .full 1]⟩

def gC7a : GenTensor := ⟨some 0⟩

def gC7b : GenTensor := ⟨some 1⟩

def tcC8 : TContent := mkTC [2] 2

def hC8 : Heap := ⟨[tcC8], [], [.full 0]⟩

def gC8 : GenTensor := ⟨some 0⟩

theorem getq_app_lt {α : Type} (l l2 : List α) (i : Nat) (hi : i < l.length) :
    (l ++ l2)[i]? = l[i]? := List.getElem?_append_left hi

theorem getq_app_len {α : Type} (l : List α) (a : α) :
    (l ++ [a])[l.length]? = some a := List.getElem?_concat_length l a

theorem getq_set_self {α : Type} (l : List α) (i : Nat) (a : α) (hi : i < l.length) :
    (l.set i a)[i]? = some a := by
  simp [List.getElem?_set_self, hi]

theorem getq_set_ne {α : Type} (l : List α) (i j : Nat) (a : α) (hne : i ≠ j) :
    (l.set i a)[j]? = l[j]? := by
  simp [List.getElem?_set_ne, hne]

theorem getq_lt {α : Type} {l : List α} {i : Nat} {x : α} (hx : l[i]? = some x) :
    i < l.length := (List.getElem?_eq_some.mp hx).1

theorem getBuf_lt {h : Heap} {i : Nat} {t : TContent} (ht : h.getBuf i = some t) :
    i < h.bufs.length := getq_lt ht

theorem getSep_lt {h : Heap} {i : Nat} {s : SepVal} (hs : h.getSep i = some s) :
    i < h.seps.length := getq_lt hs

theorem getBack_lt {h : Heap} {i : Nat} {b : Backend} (hb : h.getBack i = some b) :
    i < h.backs.length := getq_lt hb

theorem getBuf_setBuf_self (h : Heap) (i : Nat) (t : TContent) (hi : i < h.bufs.length) :
    (h.setBuf i t).getBuf i = some t := getq_set_self _ _ _ hi

theorem getBuf_setBuf_ne (h : Heap) (i j : Nat) (t : TContent) (hne : i ≠ j) :
    (h.setBuf i t).getBuf j = h.getBuf j := getq_set_ne _ _ _ _ hne

theorem getBuf_allocBuf_old (h : Heap) (t : TContent) (i : Nat) (hi : i < h.bufs.length) :
    (h.allocBuf t).1.getBuf i = h.getBuf i := getq_app_lt _ _ _ hi

theorem getBuf_allocBuf_new (h : Heap) (t : TContent) :
    (h.allocBuf t).1.getBuf h.bufs.length = some t := getq_app_len _ _

theorem getSep_setSep_self (h : Heap) (i : Nat) (s : SepVal) (hi : i < h.seps.length) :
    (h.setSep i s).getSep i = some s := getq_set_self _ _ _ hi

theorem getSep_setSep_ne (h : Heap) (i j : Nat) (s : SepVal) (hne : i ≠ j) :
    (h.setSep i s).getSep j = h.getSep j := getq_set_ne _ _ _ _ hne

theorem getSep_allocSep_old (h : Heap) (s : SepVal) (i : Nat) (hi : i < h.seps.length) :
    (h.allocSep s).1.getSep i = h.getSep i := getq_app_lt _ _ _ hi

theorem getSep_allocSep_new (h : Heap) (s : SepVal) :
    (h.allocSep s).1.getSep h.seps.length = some s := getq_app_len _ _

theorem getBack_allocBack_old (h : Heap) (b : Backend) (i : Nat) (hi : i < h.backs.length) :
    (h.allocBack b).1.getBack i = h.getBack i := getq_app_lt _ _ _ hi

theorem getBack_allocBack_new (h : Heap) (b : Backend) :
    (h.allocBack b).1.getBack h.backs.length = some b := getq_app_len _ _

@[simp]
theorem getSep_setBuf (h : Heap) (i j : Nat) (t : TContent) :
    (h.setBuf i t).getSep j = h.getSep j := rfl

@[simp]
theorem getBack_setBuf (h : Heap) (i j : Nat) (t : TContent) :
    (h.setBuf i t).getBack j = h.getBack j := rfl

@[simp]
theorem getBuf_setSep (h : Heap) (i j : Nat) (s : SepVal) :
    (h.setSep i s).getBuf j = h.getBuf j := rfl

@[simp]
theorem getBack_setSep (h : Heap) (i j : Nat) (s : SepVal) :
    (h.setSep i s).getBack j = h.getBack j := rfl

@[simp]
theorem getBuf_allocSep (h : Heap) (s : SepVal) (i : Nat) :
    (h.allocSep s).1.getBuf i = h.getBuf i := rfl

@[simp]
theorem getBuf_allocBack (h : Heap) (b : Backend) (i : Nat) :
    (h.allocBack b).1.getBuf i = h.getBuf i := rfl

@[simp]
theorem getSep_allocBuf (h : Heap) (t : TContent) (i : Nat) :
    (h.allocBuf t).1.getSep i = h.getSep i := rfl

@[simp]
theorem getSep_allocBack (h : Heap) (b : Backend) (i : Nat) :
    (h.allocBack b).1.getSep i = h.getSep i := rfl

@[simp]
theorem getBack_allocBuf (h : Heap) (t : TContent) (i : Nat) :
    (h.allocBuf t).1.getBack i = h.getBack i := rfl

@[simp]
theorem getBack_allocSep (h : Heap) (s : SepVal) (i : Nat) :
    (h.allocSep s).1.getBack i = h.getBack i := rfl

theorem tcBeq_iff (a b : TContent) :
    tcBeq a b = true ↔
      (a.shape = b.shape ∧ ∀ ix ∈ indexSpace a.shape, a.val ix = b.val ix) := by
  simp [tcBeq]

theorem tcBeq_refl (a : TContent) : tcBeq a a = true := by
  simp [tcBeq]

/-- C10: for every empty handle with no backend attached, the query operations
return safe defaults instead of signaling an error: `has_data()` returns
false, `size()` returns 0, `type()` returns the None kind, and `ndim()`
returns -1 (the null checks of `GenTensor`, source lines 407-438). -/
theorem claim_C10 (h : Heap) :
    genHasData genEmptyCtor h = .ok false h ∧
    genSize genEmptyCtor h = .ok 0 h ∧
    genTypeR genEmptyCtor h = .ok TT_NONE h ∧
    genNdim genEmptyCtor h = .ok (-1) h :=
  ⟨rfl, rfl, rfl, rfl⟩

/-- C9: for every handle of every Representation Kind (including Dense) and
all dimension arguments, `swapdim` on the public handle fails fast with an
assertion (`MADNESS_ASSERT(0)`, source line 448) and leaves the heap as it
was; the dispatch to the backend on line 449 — and with it the implemented
`FullTensor::swapdim` — is dead code, unreachable through the handle. -/
theorem claim_C9 (h : Heap) (g : GenTensor) (i j : Int) :
    genSwapdim g i j h = .err .assertFail h := rfl

/-- C2: copy-construction and copy-assignment are shallow — the two handles
hold the same backend pointer — so a subsequent `scale` through the copy is
observable through the original, and vice versa. -/
theorem claim_C2 (h : Heap) (l g : GenTensor) (x : Val) (c : TContent)
    (hc : contentO g h = some c) :
    genCopyCtor g = g ∧ genAssign l g = g ∧
    ((genScale (genCopyCtor g) x h).errOf = none ∧
      ∀ u h2, genScale (genCopyCtor g) x h = .ok u h2 →
        contentIs g h2 (tcScale x c) = true) ∧
    ((genScale g x h).errOf = none ∧
      ∀ u h2, genScale g x h = .ok u h2 →
        contentIs (genAssign l g) h2 (tcScale x c) = true) := by
  have key : (genScale g x h).errOf = none ∧
      ∀ u h2, genScale g x h = .ok u h2 → contentIs g h2 (tcScale x c) = true := by
    rcases hg : g.ptr with _ | b
    · simp [contentO, hg] at hc
    · rcases hb : h.getBack b with _ | bk
      · simp [contentO, hg, hb] at hc
      · rcases bk with t | s
        · rcases ht : h.getBuf t with _ | tc
          · simp [contentO, hg, hb, ht] at hc
          · simp [contentO, hg, hb, ht] at hc
            subst hc
            constructor
            · simp [genScale, hg, hb, ht, Res.errOf]
            · intro u h2 he
              simp only [genScale, hg, hb, ht] at he
              injection he with e1 e2
              subst e2
              simp [contentIs, contentO, hg, getBack_setBuf, hb,
                getBuf_setBuf_self _ _ _ (getBuf_lt ht), tcBeq_refl]
        · rcases hs : h.getSep s with _ | sv
          · simp [contentO, hg, hb, hs] at hc
          · simp [contentO, hg, hb, hs] at hc
            subst hc
            constructor
            · simp [genScale, hg, hb, hs, Res.errOf]
            · intro u h2 he
              simp only [genScale, hg, hb, hs] at he
              injection he with e1 e2
              subst e2
              simp [contentIs, contentO, hg, getBack_setSep, hb,
                getSep_setSep_self _ _ _ (getSep_lt hs), tcBeq_refl]
  exact ⟨rfl, rfl, key, key⟩

/-- Witness for C2 at a concrete dense handle. -/
theorem claim_C2_witness :
    genCopyCtor gC2 = gC2 ∧ genAssign genEmptyCtor gC2 = gC2 ∧
    ((genScale (genCopyCtor gC2) 2 hC2).errOf = none ∧
      ∀ u h2, genScale (genCopyCtor gC2) 2 hC2 = .ok u h2 →
        contentIs gC2 h2 (tcScale 2 tcC2) = true) ∧
    ((genScale gC2 2 hC2).errOf = none ∧
      ∀ u h2, genScale gC2 2 hC2 = .ok u h2 →
        contentIs (genAssign genEmptyCtor gC2) h2 (tcScale 2 tcC2) = true) :=
  claim_C2 hC2 genEmptyCtor gC2 2 tcC2 rfl


/-- C8: multiplying a handle by a scalar whose type differs from the element
type (here `Int` against element type `Val`) fails fast without producing a
result, while multiplying by a matching-type scalar returns a new handle
holding the scaled content and leaves the original handle's content
unchanged. -/
theorem claim_C8 (h : Heap) (g : GenTensor) (x : Val) (q : Int) (c : TContent)
    (hc : contentO g h = some c) :
    genMulScalarHetero g q h = .err .assertFail h ∧
    (genMulScalar g x h).errOf = none ∧
    resGenContentIs (genMulScalar g x h) (tcScale x c) = true ∧
    (∀ g1 h1, genMulScalar g x h = .ok g1 h1 → contentO g h1 = some c) := by
  refine ⟨rfl, ?_⟩
  rcases hg : g.ptr with _ | b
  · simp [contentO, hg] at hc
  · rcases hb : h.getBack b with _ | bk
    · simp [contentO, hg, hb] at hc
    · have hblt : b < h.backs.length := getBack_lt hb
      rcases bk with t | s
      · rcases ht : h.getBuf t with _ | tc
        · simp [contentO, hg, hb, ht] at hc
        · simp only [contentO, hg, hb, ht, Option.some.injEq] at hc
          subst hc
          have htlt : t < h.bufs.length := getBuf_lt ht
          have hcopy : genCopy g h =
              .ok ⟨some h.backs.length⟩
                ⟨h.bufs ++ [tc], h.seps, h.backs ++ [.full h.bufs.length]⟩ := by
            simp [genCopy, hg, hb, ht, Heap.allocBuf, Heap.allocBack]
          have hscale : genMulScalar g x h =
              .ok ⟨some h.backs.length⟩
                ⟨(h.bufs ++ [tc]).set h.bufs.length (tcScale x tc), h.seps,
                  h.backs ++ [.full h.bufs.length]⟩ := by
            simp only [genMulScalar, hcopy, genScale, Heap.getBack, Heap.getBuf,
              Heap.setBuf, getq_app_len]
          refine ⟨by simp [hscale, Res.errOf], ?_, ?_⟩
          · simp only [resGenContentIs, hscale, contentIs, contentO, Heap.getBack,
              Heap.getBuf]
            rw [getq_app_len]
            have hset : ((h.bufs ++ [tc]).set h.bufs.length (tcScale x tc))[h.bufs.length]? =
                some (tcScale x tc) := by
              apply getq_set_self
              simp
            simp [hset, tcBeq_refl]
          · intro g1 h1 he
            rw [hscale] at he
            injection he with e1 e2
            subst e2
            have hne : h.bufs.length ≠ t := Nat.ne_of_gt htlt
            simp only [contentO, hg, Heap.getBack, Heap.getBuf]
            rw [getq_app_lt _ _ _ hblt]
            simp only [show h.backs[b]? = some (Backend.full t) from hb]
            rw [getq_set_ne _ _ _ _ hne, getq_app_lt _ _ _ htlt]
            exact ht
      · rcases hs : h.getSep s with _ | sv
        · simp [contentO, hg, hb, hs] at hc
        · simp only [contentO, hg, hb, hs, Option.map_some', Option.some.injEq] at hc
          subst hc
          have hslt : s < h.seps.length := getSep_lt hs
          have hcopy : genCopy g h =
              .ok ⟨some h.backs.length⟩
                ⟨h.bufs, h.seps ++ [sv], h.backs ++ [.low h.seps.length]⟩ := by
            simp [genCopy, hg, hb, hs, Heap.allocSep, Heap.allocBack]
          have hscale : genMulScalar g x h =
              .ok ⟨some h.backs.length⟩
                ⟨h.bufs, (h.seps ++ [sv]).set h.seps.length
                    ⟨sv.tt, sv.valid, tcScale x sv.content⟩,
                  h.backs ++ [.low h.seps.length]⟩ := by
            simp only [genMulScalar, hcopy, genScale, Heap.getBack, Heap.getSep,
              Heap.setSep, getq_app_len]
          refine ⟨by simp [hscale, Res.errOf], ?_, ?_⟩
          · simp only [resGenContentIs, hscale, contentIs, contentO, Heap.getBack,
              Heap.getSep]
            rw [getq_app_len]
            have hset : ((h.seps ++ [sv]).set h.seps.length
                  ⟨sv.tt, sv.valid, tcScale x sv.content⟩)[h.seps.length]? =
                some ⟨sv.tt, sv.valid, tcScale x sv.content⟩ := by
              apply getq_set_self
              simp
            simp [hset, tcBeq_refl]
          · intro g1 h1 he
            rw [hscale] at he
            injection he with e1 e2
            subst e2
            have hne : h.seps.length ≠ s := Nat.ne_of_gt hslt
            simp only [contentO, hg, Heap.getBack, Heap.getSep]
            rw [getq_app_lt _ _ _ hblt]
            simp only [show h.backs[b]? = some (Backend.low s) from hb]
            rw [getq_set_ne _ _ _ _ hne, getq_app_lt _ _ _ hslt]
            simp only [show h.seps[s]? = some sv from hs, Option.map_some']

/-- Witness for C8 at a concrete dense handle. -/
theorem claim_C8_witness :
    genMulScalarHetero gC8 3 hC8 = .err .assertFail hC8 ∧
    (genMulScalar gC8 3 hC8).errOf = none ∧
    resGenContentIs (genMulScalar gC8 3 hC8) (tcScale 3 tcC8) = true ∧
    (∀ g1 h1, genMulScalar gC8 3 hC8 = .ok g1 h1 → contentO gC8 h1 = some tcC8) :=
  claim_C8 hC8 gC8 3 3 tcC8 rfl

/-- Counterexample for C1 as stated: the claim quantifies over every pair of
handles whose Representation Kinds differ, and `TT_NONE` is one of the kinds
(`type()` of an empty handle).  For the pair (empty, Dense) the kinds differ,
but `operator+=` evaluates `this->_ptr->type()` — a null-pointer dereference —
instead of failing with the kind-mismatch precondition assertion. -/
theorem claim_C1_counterexample :
    typeO gC1empty hC1x = some TT_NONE ∧
    typeO gC1full hC1x = some TT_FULL ∧
    TT_NONE ≠ TT_FULL ∧
    genPlusEq gC1empty gC1full hC1x = .err .nullDeref hC1x ∧
    Err.nullDeref ≠ Err.kindMismatch :=
  ⟨rfl, rfl, by decide, rfl, by decide⟩

/-- C1 amended: for every pair of handles that BOTH have a backend attached
and whose Representation Kinds differ, each binary operation (`operator+=`,
`trace_conj`, `gaxpy`) fails fast with the kind-mismatch precondition
assertion, and the heap — hence both operands' contents — is exactly as it was
before the call. -/
theorem claim_C1_amended (h : Heap) (a b : GenTensor) (ba bb : Nat)
    (tya tyb : TensorType) (alpha beta : Val)
    (hpa : a.ptr = some ba) (hpb : b.ptr = some bb)
    (hta : typeO a h = some tya) (htb : typeO b h = some tyb) (hne : tya ≠ tyb) :
    genPlusEq a b h = .err .kindMismatch h ∧
    genTraceConj a b h = .err .kindMismatch h ∧
    genGaxpy a alpha b beta h = .err .kindMismatch h := by
  have hta2 := hta
  have htb2 := htb
  simp only [typeO, hpa] at hta2
  simp only [typeO, hpb] at htb2
  rcases hba : h.getBack ba with _ | bka
  · rw [hba] at hta2; simp at hta2
  · rw [hba] at hta2
    simp only [Option.some_bind] at hta2
    rcases hbb : h.getBack bb with _ | bkb
    · rw [hbb] at htb2; simp at htb2
    · rw [hbb] at htb2
      simp only [Option.some_bind] at htb2
      refine ⟨?_, ?_, ?_⟩
      · simp only [genPlusEq, hpa, hba, hpb, hbb, hta2, htb2]
        simp [hne]
      · simp only [genTraceConj, hta, htb]
        simp [hne]
      · simp only [genGaxpy, hpa, hba]
        rcases bka with t | s
        · simp only [bkTypeO, Option.some.injEq] at hta2
          subst hta2
          simp only [bkGaxpy, hpb, hbb, htb2]
          simp [hne]
        · simp only [bkTypeO] at hta2
          rcases hsep : h.getSep s with _ | sva
          · rw [hsep] at hta2; simp at hta2
          · rw [hsep] at hta2
            simp only [Option.map_some', Option.some.injEq] at hta2
            simp only [bkGaxpy, hpb, hbb, htb2, hsep]
            rw [hta2]
            simp [hne]

/-- Witness for C1 amended: a Dense handle against a LowRank-3D handle. -/
theorem claim_C1_amended_witness :
    (gC1a.ptr = some 0 ∧ gC1b.ptr = some 1 ∧
      typeO gC1a hC1w = some TT_FULL ∧ typeO gC1b hC1w = some TT_3D ∧
      TT_FULL ≠ TT_3D) ∧
    (genPlusEq gC1a gC1b hC1w = .err .kindMismatch hC1w ∧
      genTraceConj gC1a gC1b hC1w = .err .kindMismatch hC1w ∧
      genGaxpy gC1a 2 gC1b 3 hC1w = .err .kindMismatch hC1w) :=
  ⟨⟨rfl, rfl, rfl, rfl, by decide⟩,
    claim_C1_amended hC1w gC1a gC1b 0 1 TT_FULL TT_3D 2 3 rfl rfl rfl rfl (by decide)⟩

theorem typeO_low_destruct {g : GenTensor} {h : Heap} {ty : TensorType}
    (hty : typeO g h = some ty) (hne : ty ≠ TT_FULL) (hne2 : ty ≠ TT_NONE) :
    ∃ b s sv, g.ptr = some b ∧ h.getBack b = some (.low s) ∧
      h.getSep s = some sv ∧ sv.tt = ty := by
  rcases hg : g.ptr with _ | b
  · simp only [typeO, hg, Option.some.injEq] at hty
    exact absurd hty.symm hne2
  · simp only [typeO, hg] at hty
    rcases hb : h.getBack b with _ | bk
    · rw [hb] at hty; simp at hty
    · rw [hb] at hty
      simp only [Option.some_bind] at hty
      rcases bk with t | s
      · simp only [bkTypeO, Option.some.injEq] at hty
        exact absurd hty.symm hne
      · simp only [bkTypeO] at hty
        rcases hs : h.getSep s with _ | sv
        · rw [hs] at hty; simp at hty
        · rw [hs] at hty
          simp only [Option.map_some', Option.some.injEq] at hty
          exact ⟨b, s, sv, rfl, hb, hs, hty⟩

/-- Counterexample for C4 as stated: a LowRank-2D handle with data is a
Low-Rank handle, but `to_full_rank` does not reconstruct it — it throws
`std::runtime_error` (only `TT_3D` is handled, source lines 1131-1136). -/
theorem claim_C4_counterexample :
    hasDataO gC4x hC4x = some true ∧
    typeO gC4x hC4x = some TT_2D ∧
    to_full_rank gC4x hC4x = .err .runtimeError hC4x :=
  ⟨rfl, rfl, rfl⟩

/-- C4 amended: `to_full_rank` is the identity on a Dense handle with data;
on a LowRank-3D handle with data it rebinds to a fresh Dense backend holding
the reconstructed content; on a LowRank-2D handle with data it fails with a
runtime error (heap unchanged); on a handle without data it rebinds to an
empty Dense backend. -/
theorem claim_C4_amended (h : Heap) (g : GenTensor) :
    (hasDataO g h = some true → typeO g h = some TT_FULL →
      to_full_rank g h = .ok g h) ∧
    (∀ c, hasDataO g h = some true → typeO g h = some TT_3D → contentO g h = some c →
      ((to_full_rank g h).errOf = none ∧
        resGenTypeIs (to_full_rank g h) TT_FULL = true ∧
        resGenContentIs (to_full_rank g h) c = true)) ∧
    (hasDataO g h = some true → typeO g h = some TT_2D →
      to_full_rank g h = .err .runtimeError h) ∧
    (hasDataO g h = some false →
      (resGenTypeIs (to_full_rank g h) TT_FULL = true ∧
        resGenHasData (to_full_rank g h) = some false)) := by
  refine ⟨?_, ?_, ?_, ?_⟩
  · intro hd ht
    simp [to_full_rank, hd, ht]
  · intro c hd ht hc
    obtain ⟨b, s, sv, hg, hb, hs, htt⟩ := typeO_low_destruct ht (by decide) (by decide)
    have hdv : sv.valid = true := by
      simp only [hasDataO, hg, hb, Option.some_bind, hs, Option.map_some',
        Option.some.injEq] at hd
      exact hd
    have hcv : sv.content = c := by
      simp only [contentO, hg, hb, hs, Option.map_some', Option.some.injEq] at hc
      exact hc
    have hrec : genReconstructTensor g h =
        .ok h.bufs.length ⟨h.bufs ++ [sv.content], h.seps, h.backs⟩ := by
      simp [genReconstructTensor, hg, hb, hs, hdv, Heap.allocBuf]
    have hbl : (h.bufs ++ [sv.content])[h.bufs.length]? = some sv.content := getq_app_len _ _
    have hfin : to_full_rank g h =
        .ok ⟨some h.backs.length⟩
          ⟨(h.bufs ++ [sv.content]) ++ [sv.content], h.seps,
            h.backs ++ [.full (h.bufs ++ [sv.content]).length]⟩ := by
      simp only [to_full_rank, hd, ht]
      simp only [show (TT_3D = TT_FULL) = False by simp, if_false, if_true, eq_self_iff_true,
        reduceIte]
      simp [hrec, genFromTensor, Heap.getBuf, hbl, Heap.allocBuf, Heap.allocBack]
    refine ⟨by simp [hfin, Res.errOf], ?_, ?_⟩
    · simp only [resGenTypeIs, hfin, typeO, Heap.getBack, getq_app_len]
      simp [bkTypeO]
    · simp only [resGenContentIs, hfin, contentIs, contentO, Heap.getBack, Heap.getBuf,
        getq_app_len]
      simp [hcv, tcBeq_refl]
  · intro hd ht
    simp [to_full_rank, hd, ht]
  · intro hd
    have hfin : to_full_rank g h =
        .ok ⟨some h.backs.length⟩
          ⟨h.bufs ++ [⟨[], fun _ => 0⟩], h.seps, h.backs ++ [.full h.bufs.length]⟩ := by
      simp [to_full_rank, hd, genFromTT, Heap.allocBuf, Heap.allocBack]
    constructor
    · simp only [resGenTypeIs, hfin, typeO, Heap.getBack, getq_app_len]
      simp [bkTypeO]
    · simp only [resGenHasData, hfin, hasDataO, Heap.getBack, getq_app_len]
      simp only [Option.some_bind, Heap.getBuf, getq_app_len]
      simp [tcSize]

/-- Witness for C4 amended at a LowRank-3D handle with data. -/
theorem claim_C4_amended_witness :
    (hasDataO gC4w hC4w = some true ∧ typeO gC4w hC4w = some TT_3D ∧
      contentO gC4w hC4w = some tcC4) ∧
    ((to_full_rank gC4w hC4w).errOf = none ∧
      resGenTypeIs (to_full_rank gC4w hC4w) TT_FULL = true ∧
      resGenContentIs (to_full_rank gC4w hC4w) tcC4 = true) :=
  ⟨⟨rfl, rfl, rfl⟩, (claim_C4_amended hC4w gC4w).2.1 tcC4 rfl rfl rfl⟩

/-- Counterexample for C5 as stated: a LowRank-2D handle with data, converted
with target kind LowRank-2D, should be a no-op by the claim ("if x is already
of the Low-Rank kind k its content is unchanged"), but `to_low_rank` throws
`std::runtime_error` for every `TT_2D` input (only `TT_3D` is the no-op case,
source lines 1152-1159). -/
theorem claim_C5_counterexample :
    hasDataO gC5x hC5x = some true ∧
    typeO gC5x hC5x = some TT_2D ∧
    to_low_rank gC5x (1/100) TT_2D hC5x = .err .runtimeError hC5x :=
  ⟨rfl, rfl, rfl⟩

/-- C5 amended: `to_low_rank` on a Dense handle with data factors the content
into a fresh backend of the target Low-Rank kind at accuracy `eps > 0`; on a
LowRank-3D handle with data it is the identity, whatever the target kind and
accuracy; on a LowRank-2D handle with data it fails with a runtime error (heap
unchanged); on a handle without data it rebinds to an empty backend of the
target kind. -/
theorem claim_C5_amended (h : Heap) (g : GenTensor) (eps : Val) (target : TensorType) :
    (∀ b t c, g.ptr = some b → h.getBack b = some (.full t) → h.getBuf t = some c →
      tcSize c ≠ 0 → (target = TT_2D ∨ target = TT_3D) → 0 < eps →
      ((to_low_rank g eps target h).errOf = none ∧
        resGenTypeIs (to_low_rank g eps target h) target = true ∧
        resGenContentIs (to_low_rank g eps target h) c = true)) ∧
    (hasDataO g h = some true → typeO g h = some TT_3D →
      to_low_rank g eps target h = .ok g h) ∧
    (hasDataO g h = some true → typeO g h = some TT_2D →
      to_low_rank g eps target h = .err .runtimeError h) ∧
    (hasDataO g h = some false →
      (resGenTypeIs (to_low_rank g eps target h) target = true ∧
        resGenHasData (to_low_rank g eps target h) = some false)) := by
  refine ⟨?_, ?_, ?_, ?_⟩
  · intro b t c hg hb ht hsz htgt heps
    have hd : hasDataO g h = some true := by
      simp [hasDataO, hg, hb, ht, hsz]
    have hty : typeO g h = some TT_FULL := by
      simp [typeO, hg, hb, bkTypeO]
    have href : genFullTensorRef g h = .ok t h := by
      simp [genFullTensorRef, hg, hb]
    have hfin : to_low_rank g eps target h =
        .ok ⟨some h.backs.length⟩
          ⟨h.bufs, h.seps ++ [⟨target, true, c⟩], h.backs ++ [.low h.seps.length]⟩ := by
      rcases htgt with rfl | rfl
      · simp only [to_low_rank, hd, hty]
        simp [href, genFromTensor, heps, ht, Heap.allocSep, Heap.allocBack]
      · simp only [to_low_rank, hd, hty]
        simp [href, genFromTensor, heps, ht, Heap.allocSep, Heap.allocBack]
    refine ⟨by simp [hfin, Res.errOf], ?_, ?_⟩
    · simp only [resGenTypeIs, hfin, typeO, Heap.getBack, getq_app_len]
      simp only [Option.some_bind, bkTypeO, Heap.getSep, getq_app_len]
      simp
    · simp only [resGenContentIs, hfin, contentIs, contentO, Heap.getBack, Heap.getSep,
        getq_app_len]
      simp [tcBeq_refl]
  · intro hd hty
    simp [to_low_rank, hd, hty]
  · intro hd hty
    simp [to_low_rank, hd, hty]
  · intro hd
    by_cases htf : target = TT_FULL
    · subst htf
      have hfin : to_low_rank g eps TT_FULL h =
          .ok ⟨some h.backs.length⟩
            ⟨h.bufs ++ [⟨[], fun _ => 0⟩], h.seps, h.backs ++ [.full h.bufs.length]⟩ := by
        simp [to_low_rank, hd, genFromTT, Heap.allocBuf, Heap.allocBack]
      constructor
      · simp only [resGenTypeIs, hfin, typeO, Heap.getBack, getq_app_len]
        simp [bkTypeO]
      · simp only [resGenHasData, hfin, hasDataO, Heap.getBack, getq_app_len]
        simp only [Option.some_bind, Heap.getBuf, getq_app_len]
        simp [tcSize]
    · have hfin : to_low_rank g eps target h =
          .ok ⟨some h.backs.length⟩
            ⟨h.bufs, h.seps ++ [⟨target, false, ⟨[], fun _ => 0⟩⟩],
              h.backs ++ [.low h.seps.length]⟩ := by
        simp [to_low_rank, hd, genFromTT, htf, Heap.allocSep, Heap.allocBack]
      constructor
      · simp only [resGenTypeIs, hfin, typeO, Heap.getBack, getq_app_len]
        simp only [Option.some_bind, bkTypeO, Heap.getSep, getq_app_len]
        simp
      · simp only [resGenHasData, hfin, hasDataO, Heap.getBack, getq_app_len]
        simp only [Option.some_bind, Heap.getSep, getq_app_len]
        simp

/-- Witness for C5 amended: a Dense handle with data factored into
LowRank-2D at accuracy 1/100. -/
theorem claim_C5_amended_witness :
    (gC5w.ptr = some 0 ∧ hC5w.getBack 0 = some (.full 0) ∧
      hC5w.getBuf 0 = some tcC5 ∧ tcSize tcC5 ≠ 0 ∧ (0 : Val) < 1/100) ∧
    ((to_low_rank gC5w (1/100) TT_2D hC5w).errOf = none ∧
      resGenTypeIs (to_low_rank gC5w (1/100) TT_2D hC5w) TT_2D = true ∧
      resGenContentIs (to_low_rank gC5w (1/100) TT_2D hC5w) tcC5 = true) :=
  ⟨⟨rfl, rfl, rfl, by decide, by norm_num⟩,
    (claim_C5_amended hC5w gC5w (1/100) TT_2D).1 0 0 tcC5 rfl rfl rfl (by decide)
      (Or.inl rfl) (by norm_num)⟩

theorem genScale_full {g : GenTensor} {h : Heap} {b t : Nat} {tc : TContent}
    (hg : g.ptr = some b) (hb : h.getBack b = some (.full t))
    (ht : h.getBuf t = some tc) (x : Val) :
    genScale g x h = .ok () (h.setBuf t (tcScale x tc)) := by
  simp [genScale, hg, hb, ht]

theorem genScale_low {g : GenTensor} {h : Heap} {b s : Nat} {sv : SepVal}
    (hg : g.ptr = some b) (hb : h.getBack b = some (.low s))
    (hs : h.getSep s = some sv) (x : Val) :
    genScale g x h = .ok () (h.setSep s ⟨sv.tt, sv.valid, tcScale x sv.content⟩) := by
  simp [genScale, hg, hb, hs]

theorem contentO_setBuf_fullbk {g : GenTensor} {h : Heap} {b t : Nat}
    (hg : g.ptr = some b) (hb : h.getBack b = some (.full t))
    {i : Nat} (hne : i ≠ t) (tc2 : TContent) :
    contentO g (h.setBuf i tc2) = contentO g h := by
  simp [contentO, hg, getBack_setBuf, hb, getBuf_setBuf_ne _ _ _ _ hne]

theorem contentO_setBuf_lowbk {g : GenTensor} {h : Heap} {b s : Nat}
    (hg : g.ptr = some b) (hb : h.getBack b = some (.low s))
    (i : Nat) (tc2 : TContent) :
    contentO g (h.setBuf i tc2) = contentO g h := by
  simp [contentO, hg, getBack_setBuf, hb, getSep_setBuf]

theorem contentO_setSep_fullbk {g : GenTensor} {h : Heap} {b t : Nat}
    (hg : g.ptr = some b) (hb : h.getBack b = some (.full t))
    (i : Nat) (sv2 : SepVal) :
    contentO g (h.setSep i sv2) = contentO g h := by
  simp [contentO, hg, getBack_setSep, hb, getBuf_setSep]

theorem contentO_setSep_lowbk {g : GenTensor} {h : Heap} {b s : Nat}
    (hg : g.ptr = some b) (hb : h.getBack b = some (.low s))
    {i : Nat} (hne : i ≠ s) (sv2 : SepVal) :
    contentO g (h.setSep i sv2) = contentO g h := by
  simp [contentO, hg, getBack_setSep, hb, getSep_setSep_ne _ _ _ _ hne]

/-- C3: each of the three deep-construction paths — the constructor from a raw
dense tensor, assignment from a slice proxy, and the explicit `copy` free
function — produces an independent backend with its own copy of the data:
mutating the new handle leaves the original content unchanged, and mutating
the original leaves the new handle's content unchanged. -/
theorem claim_C3 (h : Heap) :
    (∀ tref tc eps tt, h.getBuf tref = some tc →
      (tt = TT_FULL ∨ ((tt = TT_2D ∨ tt = TT_3D) ∧ 0 < eps)) →
      ((genFromTensor tref eps tt h).errOf = none ∧
        ∀ g1 h1, genFromTensor tref eps tt h = .ok g1 h1 →
          (contentO g1 h1 = some tc ∧
            (∀ tc2, contentO g1 (h1.setBuf tref tc2) = contentO g1 h1) ∧
            (∀ x u h2, genScale g1 x h1 = .ok u h2 → h2.getBuf tref = some tc)))) ∧
    (∀ sl : SliceGenTensor, ∀ c rc, contentO sl.refGT h = some c →
      tcSliceRead c sl.s = some rc →
      ((genAssignSlice sl h).errOf = none ∧
        ∀ g1 h1, genAssignSlice sl h = .ok g1 h1 →
          (contentO g1 h1 = some rc ∧
            (∀ x u h2, genScale g1 x h1 = .ok u h2 →
              contentO sl.refGT h2 = contentO sl.refGT h1) ∧
            (∀ x u h2, genScale sl.refGT x h1 = .ok u h2 →
              contentO g1 h2 = contentO g1 h1)))) ∧
    (∀ g c, contentO g h = some c →
      ((genCopy g h).errOf = none ∧
        ∀ g1 h1, genCopy g h = .ok g1 h1 →
          (contentO g1 h1 = some c ∧
            (∀ x u h2, genScale g1 x h1 = .ok u h2 → contentO g h2 = contentO g h1) ∧
            (∀ x u h2, genScale g x h1 = .ok u h2 → contentO g1 h2 = contentO g1 h1)))) := by
  refine ⟨?_, ?_, ?_⟩
  · -- construction from a raw dense tensor
    intro tref tc eps tt hbuf hcond
    have htlt : tref < h.bufs.length := getBuf_lt hbuf
    rcases hcond with rfl | ⟨h2d, heps⟩
    · have hfin : genFromTensor tref eps TT_FULL h =
          .ok ⟨some h.backs.length⟩
            ⟨h.bufs ++ [tc], h.seps, h.backs ++ [.full h.bufs.length]⟩ := by
        simp [genFromTensor, hbuf, Heap.allocBuf, Heap.allocBack]
      refine ⟨by simp [hfin, Res.errOf], ?_⟩
      intro g1 h1 he
      rw [hfin] at he
      injection he with e1 e2
      subst e1
      subst e2
      have hg1 : (⟨some h.backs.length⟩ : GenTensor).ptr = some h.backs.length := rfl
      have hbk1 : (⟨h.bufs ++ [tc], h.seps,
            h.backs ++ [.full h.bufs.length]⟩ : Heap).getBack h.backs.length =
          some (.full h.bufs.length) := getq_app_len _ _
      have hbf1 : (⟨h.bufs ++ [tc], h.seps,
            h.backs ++ [.full h.bufs.length]⟩ : Heap).getBuf h.bufs.length =
          some tc := getq_app_len _ _
      have hcon : contentO ⟨some h.backs.length⟩
          (⟨h.bufs ++ [tc], h.seps, h.backs ++ [.full h.bufs.length]⟩ : Heap) = some tc := by
        simp only [contentO, hg1, hbk1, hbf1]
      refine ⟨hcon, ?_, ?_⟩
      · intro tc2
        rw [contentO_setBuf_fullbk hg1 hbk1 (Nat.ne_of_lt htlt) tc2]
      · intro x u h2 hsc
        rw [genScale_full hg1 hbk1 hbf1 x] at hsc
        injection hsc with e3 e4
        subst e4
        rw [getBuf_setBuf_ne _ _ _ _ (Nat.ne_of_gt htlt)]
        simp only [Heap.getBuf]
        rw [getq_app_lt _ _ _ htlt]
        exact hbuf
    · have hfin : genFromTensor tref eps tt h =
          .ok ⟨some h.backs.length⟩
            ⟨h.bufs, h.seps ++ [⟨tt, true, tc⟩], h.backs ++ [.low h.seps.length]⟩ := by
        rcases h2d with rfl | rfl
        · simp [genFromTensor, hbuf, heps, Heap.allocSep, Heap.allocBack]
        · simp [genFromTensor, hbuf, heps, Heap.allocSep, Heap.allocBack]
      refine ⟨by simp [hfin, Res.errOf], ?_⟩
      intro g1 h1 he
      rw [hfin] at he
      injection he with e1 e2
      subst e1
      subst e2
      have hg1 : (⟨some h.backs.length⟩ : GenTensor).ptr = some h.backs.length := rfl
      have hbk1 : (⟨h.bufs, h.seps ++ [⟨tt, true, tc⟩],
            h.backs ++ [.low h.seps.length]⟩ : Heap).getBack h.backs.length =
          some (.low h.seps.length) := getq_app_len _ _
      have hsp1 : (⟨h.bufs, h.seps ++ [⟨tt, true, tc⟩],
            h.backs ++ [.low h.seps.length]⟩ : Heap).getSep h.seps.length =
          some ⟨tt, true, tc⟩ := getq_app_len _ _
      have hcon : contentO ⟨some h.backs.length⟩
          (⟨h.bufs, h.seps ++ [⟨tt, true, tc⟩],
            h.backs ++ [.low h.seps.length]⟩ : Heap) = some tc := by
        simp only [contentO, hg1, hbk1, hsp1, Option.map_some']
      refine ⟨hcon, ?_, ?_⟩
      · intro tc2
        rw [contentO_setBuf_lowbk hg1 hbk1 tref tc2]
      · intro x u h2 hsc
        rw [genScale_low hg1 hbk1 hsp1 x] at hsc
        injection hsc with e3 e4
        subst e4
        exact hbuf
  · -- assignment from a slice proxy
    intro sl c rc hc hsr
    rcases hg : sl.refGT.ptr with _ | b
    · simp [contentO, hg] at hc
    · rcases hb : h.getBack b with _ | bk
      · simp [contentO, hg, hb] at hc
      · have hblt : b < h.backs.length := getBack_lt hb
        rcases bk with t | s
        · rcases ht : h.getBuf t with _ | tc
          · simp [contentO, hg, hb, ht] at hc
          · simp only [contentO, hg, hb, ht, Option.some.injEq] at hc
            subst hc
            have htlt : t < h.bufs.length := getBuf_lt ht
            have hfin : genAssignSlice sl h =
                .ok ⟨some h.backs.length⟩
                  ⟨h.bufs ++ [rc], h.seps, h.backs ++ [.full h.bufs.length]⟩ := by
              simp [genAssignSlice, hg, hb, ht, hsr, Heap.allocBuf, Heap.allocBack]
            refine ⟨by simp [hfin, Res.errOf], ?_⟩
            intro g1 h1 he
            rw [hfin] at he
            injection he with e1 e2
            subst e1
            subst e2
            have hg1 : (⟨some h.backs.length⟩ : GenTensor).ptr = some h.backs.length := rfl
            have hbk1 : (⟨h.bufs ++ [rc], h.seps,
                  h.backs ++ [.full h.bufs.length]⟩ : Heap).getBack h.backs.length =
                some (.full h.bufs.length) := getq_app_len _ _
            have hbf1 : (⟨h.bufs ++ [rc], h.seps,
                  h.backs ++ [.full h.bufs.length]⟩ : Heap).getBuf h.bufs.length =
                some rc := getq_app_len _ _
            have hbko : (⟨h.bufs ++ [rc], h.seps,
                  h.backs ++ [.full h.bufs.length]⟩ : Heap).getBack b =
                some (.full t) := by
              rw [show (⟨h.bufs ++ [rc], h.seps,
                    h.backs ++ [.full h.bufs.length]⟩ : Heap).getBack b =
                  h.getBack b from getq_app_lt _ _ _ hblt]
              exact hb
            have hbfo : (⟨h.bufs ++ [rc], h.seps,
                  h.backs ++ [.full h.bufs.length]⟩ : Heap).getBuf t = some tc := by
              rw [show (⟨h.bufs ++ [rc], h.seps,
                    h.backs ++ [.full h.bufs.length]⟩ : Heap).getBuf t =
                  h.getBuf t from getq_app_lt _ _ _ htlt]
              exact ht
            refine ⟨by simp only [contentO, hg1, hbk1, hbf1], ?_, ?_⟩
            · intro x u h2 hsc
              rw [genScale_full hg1 hbk1 hbf1 x] at hsc
              injection hsc with e3 e4
              subst e4
              rw [contentO_setBuf_fullbk hg hbko (Nat.ne_of_gt htlt) (tcScale x rc)]
            · intro x u h2 hsc
              rw [genScale_full hg hbko hbfo x] at hsc
              injection hsc with e3 e4
              subst e4
              rw [contentO_setBuf_fullbk hg1 hbk1 (Nat.ne_of_lt htlt) (tcScale x tc)]
        · rcases hs : h.getSep s with _ | sv
          · simp [contentO, hg, hb, hs] at hc
          · simp only [contentO, hg, hb, hs, Option.map_some', Option.some.injEq] at hc
            subst hc
            have hslt : s < h.seps.length := getSep_lt hs
            have hfin : genAssignSlice sl h =
                .ok ⟨some h.backs.length⟩
                  ⟨h.bufs, h.seps ++ [⟨sv.tt, sv.valid, rc⟩],
                    h.backs ++ [.low h.seps.length]⟩ := by
              simp [genAssignSlice, hg, hb, hs, hsr, Heap.allocSep, Heap.allocBack]
            refine ⟨by simp [hfin, Res.errOf], ?_⟩
            intro g1 h1 he
            rw [hfin] at he
            injection he with e1 e2
            subst e1
            subst e2
            have hg1 : (⟨some h.backs.length⟩ : GenTensor).ptr = some h.backs.length := rfl
            have hbk1 : (⟨h.bufs, h.seps ++ [⟨sv.tt, sv.valid, rc⟩],
                  h.backs ++ [.low h.seps.length]⟩ : Heap).getBack h.backs.length =
                some (.low h.seps.length) := getq_app_len _ _
            have hsp1 : (⟨h.bufs, h.seps ++ [⟨sv.tt, sv.valid, rc⟩],
                  h.backs ++ [.low h.seps.length]⟩ : Heap).getSep h.seps.length =
                some ⟨sv.tt, sv.valid, rc⟩ := getq_app_len _ _
            have hbko : (⟨h.bufs, h.seps ++ [⟨sv.tt, sv.valid, rc⟩],
                  h.backs ++ [.low h.seps.length]⟩ : Heap).getBack b =
                some (.low s) := by
              rw [show (⟨h.bufs, h.seps ++ [⟨sv.tt, sv.valid, rc⟩],
                    h.backs ++ [.low h.seps.length]⟩ : Heap).getBack b =
                  h.getBack b from getq_app_lt _ _ _ hblt]
              exact hb
            have hspo : (⟨h.bufs, h.seps ++ [⟨sv.tt, sv.valid, rc⟩],
                  h.backs ++ [.low h.seps.length]⟩ : Heap).getSep s = some sv := by
              rw [show (⟨h.bufs, h.seps ++ [⟨sv.tt, sv.valid, rc⟩],
                    h.backs ++ [.low h.seps.length]⟩ : Heap).getSep s =
                  h.getSep s from getq_app_lt _ _ _ hslt]
              exact hs
            refine ⟨by simp only [contentO, hg1, hbk1, hsp1, Option.map_some'], ?_, ?_⟩
            · intro x u h2 hsc
              rw [genScale_low hg1 hbk1 hsp1 x] at hsc
              injection hsc with e3 e4
              subst e4
              rw [contentO_setSep_lowbk hg hbko (Nat.ne_of_gt hslt) _]
            · intro x u h2 hsc
              rw [genScale_low hg hbko hspo x] at hsc
              injection hsc with e3 e4
              subst e4
              rw [contentO_setSep_lowbk hg1 hbk1 (Nat.ne_of_lt hslt) _]
  · -- the explicit deep copy
    intro g c hc
    rcases hg : g.ptr with _ | b
    · simp only [contentO, hg] at hc
      exact absurd hc (by simp)
    · rcases hb : h.getBack b with _ | bk
      · simp [contentO, hg, hb] at hc
      · have hblt : b < h.backs.length := getBack_lt hb
        rcases bk with t | s
        · rcases ht : h.getBuf t with _ | tc
          · simp [contentO, hg, hb, ht] at hc
          · simp only [contentO, hg, hb, ht, Option.some.injEq] at hc
            subst hc
            have htlt : t < h.bufs.length := getBuf_lt ht
            have hfin : genCopy g h =
                .ok ⟨some h.backs.length⟩
                  ⟨h.bufs ++ [tc], h.seps, h.backs ++ [.full h.bufs.length]⟩ := by
              simp [genCopy, hg, hb, ht, Heap.allocBuf, Heap.allocBack]
            refine ⟨by simp [hfin, Res.errOf], ?_⟩
            intro g1 h1 he
            rw [hfin] at he
            injection he with e1 e2
            subst e1
            subst e2
            have hg1 : (⟨some h.backs.length⟩ : GenTensor).ptr = some h.backs.length := rfl
            have hbk1 : (⟨h.bufs ++ [tc], h.seps,
                  h.backs ++ [.full h.bufs.length]⟩ : Heap).getBack h.backs.length =
                some (.full h.bufs.length) := getq_app_len _ _
            have hbf1 : (⟨h.bufs ++ [tc], h.seps,
                  h.backs ++ [.full h.bufs.length]⟩ : Heap).getBuf h.bufs.length =
                some tc := getq_app_len _ _
            have hbko : (⟨h.bufs ++ [tc], h.seps,
                  h.backs ++ [.full h.bufs.length]⟩ : Heap).getBack b =
                some (.full t) := by
              rw [show (⟨h.bufs ++ [tc], h.seps,
                    h.backs ++ [.full h.bufs.length]⟩ : Heap).getBack b =
                  h.getBack b from getq_app_lt _ _ _ hblt]
              exact hb
            have hbfo : (⟨h.bufs ++ [tc], h.seps,
                  h.backs ++ [.full h.bufs.length]⟩ : Heap).getBuf t = some tc := by
              rw [show (⟨h.bufs ++ [tc], h.seps,
                    h.backs ++ [.full h.bufs.length]⟩ : Heap).getBuf t =
                  h.getBuf t from getq_app_lt _ _ _ htlt]
              exact ht
            refine ⟨by simp only [contentO, hg1, hbk1, hbf1], ?_, ?_⟩
            · intro x u h2 hsc
              rw [genScale_full hg1 hbk1 hbf1 x] at hsc
              injection hsc with e3 e4
              subst e4
              rw [contentO_setBuf_fullbk hg hbko (Nat.ne_of_gt htlt) (tcScale x tc)]
            · intro x u h2 hsc
              rw [genScale_full hg hbko hbfo x] at hsc
              injection hsc with e3 e4
              subst e4
              rw [contentO_setBuf_fullbk hg1 hbk1 (Nat.ne_of_lt htlt) (tcScale x tc)]
        · rcases hs : h.getSep s with _ | sv
          · simp [contentO, hg, hb, hs] at hc
          · simp only [contentO, hg, hb, hs, Option.map_some', Option.some.injEq] at hc
            subst hc
            have hslt : s < h.seps.length := getSep_lt hs
            have hfin : genCopy g h =
                .ok ⟨some h.backs.length⟩
                  ⟨h.bufs, h.seps ++ [sv], h.backs ++ [.low h.seps.length]⟩ := by
              simp [genCopy, hg, hb, hs, Heap.allocSep, Heap.allocBack]
            refine ⟨by simp [hfin, Res.errOf], ?_⟩
            intro g1 h1 he
            rw [hfin] at he
            injection he with e1 e2
            subst e1
            subst e2
            have hg1 : (⟨some h.backs.length⟩ : GenTensor).ptr = some h.backs.length := rfl
            have hbk1 : (⟨h.bufs, h.seps ++ [sv],
                  h.backs ++ [.low h.seps.length]⟩ : Heap).getBack h.backs.length =
                some (.low h.seps.length) := getq_app_len _ _
            have hsp1 : (⟨h.bufs, h.seps ++ [sv],
                  h.backs ++ [.low h.seps.length]⟩ : Heap).getSep h.seps.length =
                some sv := getq_app_len _ _
            have hbko : (⟨h.bufs, h.seps ++ [sv],
                  h.backs ++ [.low h.seps.length]⟩ : Heap).getBack b =
                some (.low s) := by
              rw [show (⟨h.bufs, h.seps ++ [sv],
                    h.backs ++ [.low h.seps.length]⟩ : Heap).getBack b =
                  h.getBack b from getq_app_lt _ _ _ hblt]
              exact hb
            have hspo : (⟨h.bufs, h.seps ++ [sv],
                  h.backs ++ [.low h.seps.length]⟩ : Heap).getSep s = some sv := by
              rw [show (⟨h.bufs, h.seps ++ [sv],
                    h.backs ++ [.low h.seps.length]⟩ : Heap).getSep s =
                  h.getSep s from getq_app_lt _ _ _ hslt]
              exact hs
            refine ⟨by simp only [contentO, hg1, hbk1, hsp1, Option.map_some'], ?_, ?_⟩
            · intro x u h2 hsc
              rw [genScale_low hg1 hbk1 hsp1 x] at hsc
              injection hsc with e3 e4
              subst e4
              rw [contentO_setSep_lowbk hg hbko (Nat.ne_of_gt hslt) _]
            · intro x u h2 hsc
              rw [genScale_low hg hbko hspo x] at hsc
              injection hsc with e3 e4
              subst e4
              rw [contentO_setSep_lowbk hg1 hbk1 (Nat.ne_of_lt hslt) _]

/-- Witness for C3: the dense constructor path at a concrete one-buffer heap. -/
theorem claim_C3_witness :
    (hC3.getBuf 0 = some tcC3) ∧
    ((genFromTensor 0 1 TT_FULL hC3).errOf = none ∧
      ∀ g1 h1, genFromTensor 0 1 TT_FULL hC3 = .ok g1 h1 →
        (contentO g1 h1 = some tcC3 ∧
          (∀ tc2, contentO g1 (h1.setBuf 0 tc2) = contentO g1 h1) ∧
          (∀ x u h2, genScale g1 x h1 = .ok u h2 → h2.getBuf 0 = some tcC3))) :=
  ⟨rfl, (claim_C3 hC3).1 0 tcC3 1 TT_FULL rfl (Or.inl rfl)⟩

theorem length_mem_indexSpace {shape ix : List Nat}
    (hm : ix ∈ indexSpace shape) : ix.length = shape.length := by
  induction shape generalizing ix with
  | nil =>
    simp only [indexSpace, List.mem_singleton] at hm
    subst hm
    rfl
  | cons d ds ih =>
    simp only [indexSpace, List.mem_flatMap, List.mem_map, List.mem_range] at hm
    obtain ⟨i, hi, tl, htl, heq⟩ := hm
    subst heq
    simp [ih htl]

theorem slicesOk_whole (shape : List Nat) :
    slicesOk shape (List.replicate shape.length .whole) = true := by
  simp only [slicesOk, List.length_replicate, Bool.and_eq_true, decide_eq_true_eq,
    List.all_eq_true]
  refine ⟨trivial, ?_⟩
  intro p hp
  rw [List.eq_of_mem_replicate (List.of_mem_zip hp).2]
  rfl

theorem sliceShape_whole (shape : List Nat) :
    sliceShape shape (List.replicate shape.length .whole) = shape := by
  induction shape with
  | nil => rfl
  | cons d ds ih =>
    simp only [List.length_cons, List.replicate_succ, sliceShape,
      List.zipWith_cons_cons] at ih ⊢
    rw [ih]
    rfl

theorem sliceSrc_whole {n : Nat} {p : List Nat} (hp : p.length = n) :
    sliceSrc (List.replicate n .whole) p = p := by
  induction p generalizing n with
  | nil => subst hp; rfl
  | cons i tl ih =>
    subst hp
    simp only [List.length_cons, List.replicate_succ, sliceSrc, List.zipWith_cons_cons]
    rw [show List.zipWith SliceSpec.src (List.replicate tl.length .whole) tl = tl
      from ih rfl]
    rfl

theorem regionPos_whole {n : Nat} {p : List Nat} (hp : p.length = n) :
    regionPos (List.replicate n .whole) p = p := by
  induction p generalizing n with
  | nil => subst hp; rfl
  | cons i tl ih =>
    subst hp
    simp only [List.length_cons, List.replicate_succ, regionPos, List.zipWith_cons_cons]
    rw [show List.zipWith SliceSpec.pos (List.replicate tl.length .whole) tl = tl
      from ih rfl]
    rfl

theorem regionMem_whole {shape ix : List Nat} (hm : ix ∈ indexSpace shape) :
    regionMem shape (List.replicate shape.length .whole) ix = true := by
  simp only [regionMem, Bool.and_eq_true, decide_eq_true_eq, List.all_eq_true]
  refine ⟨length_mem_indexSpace hm, ?_⟩
  intro p hp
  induction shape generalizing ix with
  | nil =>
    simp only [indexSpace, List.mem_singleton] at hm
    subst hm
    simp at hp
  | cons d ds ih =>
    simp only [indexSpace, List.mem_flatMap, List.mem_map, List.mem_range] at hm
    obtain ⟨i, hi, tl, htl, heq⟩ := hm
    subst heq
    simp only [List.length_cons, List.replicate_succ, List.zip_cons_cons,
      List.mem_cons] at hp
    rcases hp with rfl | hp
    · simp [SliceSpec.memB, hi]
    · exact ih htl hp

theorem tcSliceGaxpy_whole {s : List Nat} (a b : TContent) (alpha beta : Val)
    (ha : a.shape = s) (hb : b.shape = s) :
    tcSliceGaxpy a (List.replicate s.length .whole) alpha b
      (List.replicate s.length .whole) beta =
    .ok ⟨s, fun ix =>
      if regionMem s (List.replicate s.length .whole) ix
      then a.val ix * alpha + b.val (sliceSrc (List.replicate s.length .whole)
        (regionPos (List.replicate s.length .whole) ix)) * beta
      else a.val ix⟩ := by
  obtain ⟨sa, va⟩ := a
  obtain ⟨sb, vb⟩ := b
  simp only at ha hb
  subst ha
  subst hb
  unfold tcSliceGaxpy
  rw [if_pos (slicesOk_whole _), if_pos (slicesOk_whole _), if_pos rfl]

/-- Counterexample for C7 as stated: the claim quantifies over every pair of
handles with equal kind and shape, which includes an aliased pair (the spec
itself makes aliasing first-class through shallow copies).  With `b` the very
same Dense handle as `a` (content 1), `a += b` doubles the shared buffer, and
the subsequent in-place subtraction `a.gaxpy(1.0, b, -1.0)` subtracts the
doubled value, leaving 0 instead of the original content — exact Dense
arithmetic, so no accuracy threshold excuses it. -/
theorem claim_C7_counterexample :
    typeO gC7x hC7x = some TT_FULL ∧
    contentO gC7x hC7x = some tcC7x ∧
    (addThenSub gC7x gC7x hC7x).errOf = none ∧
    resContentIs (addThenSub gC7x gC7x hC7x) gC7x tcC7x = false := by
  refine ⟨rfl, rfl, rfl, ?_⟩
  cases hb : resContentIs (addThenSub gC7x gC7x hC7x) gC7x tcC7x with
  | false => rfl
  | true =>
    exfalso
    have hb2 : tcBeq (⟨[1], fun ix =>
        (tcC7x.val ix * 1 + tcC7x.val ix * 1) * 1 +
          (tcC7x.val ix * 1 + tcC7x.val ix * 1) * (-1)⟩ : TContent) tcC7x = true := hb
    have hpoint := ((tcBeq_iff _ _).mp hb2).2 [0] (by decide)
    simp only [tcC7x, mkTC] at hpoint
    norm_num at hpoint

/-- C7 amended: for handles `a`, `b` of equal Representation Kind and shape
that do not alias each other (distinct backend objects and distinct payloads),
`a += b` followed by the in-place subtraction the handle provides
(`a.gaxpy(1.0, b, -1.0)`; no `operator-=` exists) restores the original
content of `a` exactly — for the Dense kind and, in the exact model of the
separated-representation engine, for the Low-Rank kinds (hence within every
accuracy threshold). -/
theorem claim_C7_amended (h : Heap) (a b : GenTensor) (ba bb : Nat)
    (hpa : a.ptr = some ba) (hpb : b.ptr = some bb) (_hnb : ba ≠ bb) :
    (∀ t1 t2 c1 c2, h.getBack ba = some (.full t1) → h.getBack bb = some (.full t2) →
      t1 ≠ t2 → h.getBuf t1 = some c1 → h.getBuf t2 = some c2 → c1.shape = c2.shape →
      ((addThenSub a b h).errOf = none ∧
        resContentIs (addThenSub a b h) a c1 = true)) ∧
    (∀ s1 s2 sv1 sv2, h.getBack ba = some (.low s1) → h.getBack bb = some (.low s2) →
      s1 ≠ s2 → h.getSep s1 = some sv1 → h.getSep s2 = some sv2 →
      sv1.tt = sv2.tt → sv1.content.shape = sv2.content.shape →
      ((addThenSub a b h).errOf = none ∧
        resContentIs (addThenSub a b h) a sv1.content = true)) := by
  constructor
  · intro t1 t2 c1 c2 hb1 hb2 hnt hc1 hc2 hsh
    have ht1l : t1 < h.bufs.length := getBuf_lt hc1
    have hadd : tcGaxpy 1 c1 1 c2 =
        .ok ⟨c1.shape, fun ix => c1.val ix * 1 + c2.val ix * 1⟩ := by
      unfold tcGaxpy
      rw [if_pos hsh]
    have hplus : genPlusEq a b h =
        .ok () (h.setBuf t1 ⟨c1.shape, fun ix => c1.val ix * 1 + c2.val ix * 1⟩) := by
      simp only [genPlusEq, hpa, hpb, hb1, hb2, bkTypeO, reduceIte, bkAccumulateInto,
        hc1, hc2, hadd]
    have hg1 : (h.setBuf t1 ⟨c1.shape, fun ix => c1.val ix * 1 + c2.val ix * 1⟩).getBuf t1 =
        some ⟨c1.shape, fun ix => c1.val ix * 1 + c2.val ix * 1⟩ :=
      getBuf_setBuf_self _ _ _ ht1l
    have hg2 : (h.setBuf t1 ⟨c1.shape, fun ix => c1.val ix * 1 + c2.val ix * 1⟩).getBuf t2 =
        some c2 := by
      rw [getBuf_setBuf_ne _ _ _ _ hnt]
      exact hc2
    have hsub : tcGaxpy 1 ⟨c1.shape, fun ix => c1.val ix * 1 + c2.val ix * 1⟩ (-1) c2 =
        .ok ⟨c1.shape, fun ix =>
          (c1.val ix * 1 + c2.val ix * 1) * 1 + c2.val ix * (-1)⟩ := by
      unfold tcGaxpy
      rw [if_pos hsh]
    have hgax : genGaxpy a 1 b (-1)
        (h.setBuf t1 ⟨c1.shape, fun ix => c1.val ix * 1 + c2.val ix * 1⟩) =
        .ok () ((h.setBuf t1 ⟨c1.shape, fun ix => c1.val ix * 1 + c2.val ix * 1⟩).setBuf t1
          ⟨c1.shape, fun ix => (c1.val ix * 1 + c2.val ix * 1) * 1 + c2.val ix * (-1)⟩) := by
      simp only [genGaxpy, hpa, getBack_setBuf, hb1, bkGaxpy, hpb, hb2, bkTypeO,
        reduceIte, hg1, hg2, hsub]
    have hfin : addThenSub a b h =
        .ok () ((h.setBuf t1 ⟨c1.shape, fun ix => c1.val ix * 1 + c2.val ix * 1⟩).setBuf t1
          ⟨c1.shape, fun ix => (c1.val ix * 1 + c2.val ix * 1) * 1 + c2.val ix * (-1)⟩) := by
      simp only [addThenSub, hplus, hgax]
    refine ⟨by simp [hfin, Res.errOf], ?_⟩
    simp only [resContentIs, hfin, contentIs, contentO, hpa, getBack_setBuf, hb1]
    have hlen2 : t1 < (h.setBuf t1
        ⟨c1.shape, fun ix => c1.val ix * 1 + c2.val ix * 1⟩).bufs.length := by
      simp [Heap.setBuf, ht1l]
    rw [getBuf_setBuf_self _ _ _ hlen2]
    refine (tcBeq_iff _ _).mpr ⟨rfl, ?_⟩
    intro ix _
    ring
  · intro s1 s2 sv1 sv2 hb1 hb2 hns hs1 hs2 htt hsh
    have hs1l : s1 < h.seps.length := getSep_lt hs1
    have hadd : tcGaxpy 1 sv1.content 1 sv2.content =
        .ok ⟨sv1.content.shape,
          fun ix => sv1.content.val ix * 1 + sv2.content.val ix * 1⟩ := by
      unfold tcGaxpy
      rw [if_pos hsh]
    have hplus : genPlusEq a b h =
        .ok () (h.setSep s1 ⟨sv1.tt, sv1.valid, ⟨sv1.content.shape,
          fun ix => sv1.content.val ix * 1 + sv2.content.val ix * 1⟩⟩) := by
      simp only [genPlusEq, hpa, hpb, hb1, hb2, bkTypeO, hs1, hs2, Option.map_some',
        htt, reduceIte, bkAccumulateInto, hadd]
    have hg1 : (h.setSep s1 ⟨sv1.tt, sv1.valid, ⟨sv1.content.shape,
        fun ix => sv1.content.val ix * 1 + sv2.content.val ix * 1⟩⟩).getSep s1 =
        some ⟨sv1.tt, sv1.valid, ⟨sv1.content.shape,
          fun ix => sv1.content.val ix * 1 + sv2.content.val ix * 1⟩⟩ :=
      getSep_setSep_self _ _ _ hs1l
    have hg2 : (h.setSep s1 ⟨sv1.tt, sv1.valid, ⟨sv1.content.shape,
        fun ix => sv1.content.val ix * 1 + sv2.content.val ix * 1⟩⟩).getSep s2 =
        some sv2 := by
      rw [getSep_setSep_ne _ _ _ _ hns]
      exact hs2
    have hlsub := tcSliceGaxpy_whole (s := sv1.content.shape)
      (⟨sv1.content.shape, fun ix => sv1.content.val ix * 1 + sv2.content.val ix * 1⟩)
      sv2.content 1 (-1) rfl hsh.symm
    have hgax : genGaxpy a 1 b (-1)
        (h.setSep s1 ⟨sv1.tt, sv1.valid, ⟨sv1.content.shape,
          fun ix => sv1.content.val ix * 1 + sv2.content.val ix * 1⟩⟩) =
        .ok () ((h.setSep s1 ⟨sv1.tt, sv1.valid, ⟨sv1.content.shape,
          fun ix => sv1.content.val ix * 1 + sv2.content.val ix * 1⟩⟩).setSep s1
            ⟨sv1.tt, sv1.valid, ⟨sv1.content.shape, fun ix =>
              if regionMem sv1.content.shape
                  (List.replicate sv1.content.shape.length .whole) ix
              then (sv1.content.val ix * 1 + sv2.content.val ix * 1) * 1 +
                sv2.content.val (sliceSrc (List.replicate sv1.content.shape.length .whole)
                  (regionPos (List.replicate sv1.content.shape.length .whole) ix)) * (-1)
              else sv1.content.val ix * 1 + sv2.content.val ix * 1⟩⟩) := by
      have hlen : (sv1.content.shape.length : Int) = (sv2.content.shape.length : Int) := by
        rw [hsh]
      simp only [genGaxpy, hpa, getBack_setSep, hb1, bkGaxpy, hpb, hb2, hg1, hg2,
        bkTypeO, Option.map_some', Option.some_bind, if_pos htt, reduceIte, ndimO,
        if_pos hlen, hlsub]
    have hfin : addThenSub a b h =
        .ok () ((h.setSep s1 ⟨sv1.tt, sv1.valid, ⟨sv1.content.shape,
          fun ix => sv1.content.val ix * 1 + sv2.content.val ix * 1⟩⟩).setSep s1
            ⟨sv1.tt, sv1.valid, ⟨sv1.content.shape, fun ix =>
              if regionMem sv1.content.shape
                  (List.replicate sv1.content.shape.length .whole) ix
              then (sv1.content.val ix * 1 + sv2.content.val ix * 1) * 1 +
                sv2.content.val (sliceSrc (List.replicate sv1.content.shape.length .whole)
                  (regionPos (List.replicate sv1.content.shape.length .whole) ix)) * (-1)
              else sv1.content.val ix * 1 + sv2.content.val ix * 1⟩⟩) := by
      simp only [addThenSub, hplus, hgax]
    refine ⟨by simp [hfin, Res.errOf], ?_⟩
    simp only [resContentIs, hfin, contentIs, contentO, hpa, getBack_setSep, hb1]
    have hlen2 : s1 < (h.setSep s1 ⟨sv1.tt, sv1.valid, ⟨sv1.content.shape,
        fun ix => sv1.content.val ix * 1 + sv2.content.val ix * 1⟩⟩).seps.length := by
      simp [Heap.setSep, hs1l]
    rw [getSep_setSep_self _ _ _ hlen2]
    simp only [Option.map_some']
    refine (tcBeq_iff _ _).mpr ⟨rfl, ?_⟩
    intro ix hix
    have hix2 : ix ∈ indexSpace sv1.content.shape := hix
    show (if regionMem sv1.content.shape (List.replicate sv1.content.shape.length .whole) ix
        then (sv1.content.val ix * 1 + sv2.content.val ix * 1) * 1 +
          sv2.content.val (sliceSrc (List.replicate sv1.content.shape.length .whole)
            (regionPos (List.replicate sv1.content.shape.length .whole) ix)) * (-1)
        else sv1.content.val ix * 1 + sv2.content.val ix * 1) = sv1.content.val ix
    rw [regionMem_whole hix2, if_pos rfl]
    rw [regionPos_whole (length_mem_indexSpace hix2),
      sliceSrc_whole (length_mem_indexSpace hix2)]
    ring

/-- Witness for C7 amended: two distinct Dense handles of the same shape. -/
theorem claim_C7_amended_witness :
    (gC7a.ptr = some 0 ∧ gC7b.ptr = some 1 ∧ (0 : Nat) ≠ 1 ∧
      hC7w.getBack 0 = some (.full 0) ∧ hC7w.getBack 1 = some (.full 1) ∧
      hC7w.getBuf 0 = some tcC7a ∧ hC7w.getBuf 1 = some tcC7b ∧
      tcC7a.shape = tcC7b.shape) ∧
    ((addThenSub gC7a gC7b hC7w).errOf = none ∧
      resContentIs (addThenSub gC7a gC7b hC7w) gC7a tcC7a = true) :=
  ⟨⟨rfl, rfl, by decide, rfl, rfl, rfl, rfl, rfl⟩,
    (claim_C7_amended hC7w gC7a gC7b 0 1 rfl rfl (by decide)).1 0 1 tcC7a tcC7b
      rfl rfl (by decide) rfl rfl rfl⟩

theorem sliceLen_idem (d : Nat) (s : SliceSpec) :
    SliceSpec.len (SliceSpec.len d s) s = SliceSpec.len d s := by
  cases s <;> rfl

theorem sliceShape_idem (shape : List Nat) (ss : List SliceSpec) :
    sliceShape (sliceShape shape ss) ss = sliceShape shape ss := by
  induction ss generalizing shape with
  | nil => simp [sliceShape]
  | cons s ss ih =>
    cases shape with
    | nil => simp [sliceShape]
    | cons d ds =>
      simp only [sliceShape, List.zipWith_cons_cons]
      rw [sliceLen_idem]
      rw [show List.zipWith SliceSpec.len (List.zipWith SliceSpec.len ds ss) ss =
        List.zipWith SliceSpec.len ds ss from ih ds]

theorem slicesOk_cons {d : Nat} {ds : List Nat} {s : SliceSpec} {ss : List SliceSpec} :
    slicesOk (d :: ds) (s :: ss) = true ↔
      (SliceSpec.ok d s = true ∧ slicesOk ds ss = true) := by
  simp only [slicesOk, List.length_cons, List.zip_cons_cons, List.all_cons,
    Bool.and_eq_true, decide_eq_true_eq]
  constructor
  · rintro ⟨hlen, hok, hall⟩
    exact ⟨hok, by omega, hall⟩
  · rintro ⟨hok, hlen, hall⟩
    exact ⟨by omega, hok, hall⟩

theorem reslicableOk_ok {d : Nat} {s : SliceSpec} (hok : SliceSpec.ok d s = true)
    (hr : reslicableOk s = true) : SliceSpec.ok (SliceSpec.len d s) s = true := by
  cases s with
  | whole => rfl
  | seg a b st =>
    simp only [reslicableOk, Bool.and_eq_true, Bool.or_eq_true, decide_eq_true_eq] at hr
    obtain ⟨ha0, hcase⟩ := hr
    subst ha0
    simp only [SliceSpec.ok, Bool.and_eq_true, decide_eq_true_eq] at hok ⊢
    obtain ⟨⟨hst, hab⟩, _hbd⟩ := hok
    refine ⟨⟨hst, hab⟩, ?_⟩
    rcases hcase with h1 | h1
    · subst h1
      simp only [SliceSpec.len]
      omega
    · rcases Nat.le_one_iff_eq_zero_or_eq_one.mp h1 with rfl | rfl
      · exact Nat.zero_le _
      · simp only [SliceSpec.len]
        have h2 : 1 - 0 + st - 1 = st := by omega
        rw [h2, Nat.div_self hst]

theorem reslicableOk_neg {d : Nat} {s : SliceSpec} (hok : SliceSpec.ok d s = true)
    (hr : reslicableOk s = false) : SliceSpec.ok (SliceSpec.len d s) s = false := by
  cases s with
  | whole => simp [reslicableOk] at hr
  | seg a b st =>
    simp only [SliceSpec.ok, Bool.and_eq_true, decide_eq_true_eq] at hok
    obtain ⟨⟨hst, hab⟩, _hbd⟩ := hok
    have hr' : ¬(a = 0 ∧ (st = 1 ∨ b ≤ 1)) := by
      intro hx
      rw [show reslicableOk (.seg a b st) = true by
        simp only [reslicableOk, Bool.and_eq_true, Bool.or_eq_true, decide_eq_true_eq]
        exact hx] at hr
      cases hr
    have hkey : b - a + st - 1 < b * st := by
      rcases Nat.eq_zero_or_pos a with rfl | ha1
      · have h2 : 2 ≤ st := by omega
        have h3 : 2 ≤ b := by omega
        obtain ⟨b2, rfl⟩ : ∃ b2, b = b2 + 2 := ⟨b - 2, by omega⟩
        obtain ⟨s2, rfl⟩ : ∃ s2, st = s2 + 2 := ⟨st - 2, by omega⟩
        have hexp : (b2 + 2) * (s2 + 2) = b2 * s2 + 2 * b2 + 2 * s2 + 4 := by ring
        omega
      · obtain ⟨b2, rfl⟩ : ∃ b2, b = b2 + 1 := ⟨b - 1, by omega⟩
        obtain ⟨s2, rfl⟩ : ∃ s2, st = s2 + 1 := ⟨st - 1, by omega⟩
        have hexp : (b2 + 1) * (s2 + 1) = b2 * s2 + b2 + s2 + 1 := by ring
        omega
    have hlt : SliceSpec.len d (.seg a b st) < b := by
      simp only [SliceSpec.len]
      rw [Nat.div_lt_iff_lt_mul hst]
      exact hkey
    have hdec : decide (b ≤ SliceSpec.len d (.seg a b st)) = false :=
      decide_eq_false_iff_not.mpr (by omega)
    simp [SliceSpec.ok, hdec]

theorem reslicable_cons {s : SliceSpec} {ss : List SliceSpec} :
    reslicable (s :: ss) = true ↔
      (reslicableOk s = true ∧ reslicable ss = true) := by
  simp [reslicable, List.all_cons, Bool.and_eq_true]

theorem reslicable_slicesOk {shape : List Nat} {ss : List SliceSpec}
    (hok : slicesOk shape ss = true) (hr : reslicable ss = true) :
    slicesOk (sliceShape shape ss) ss = true := by
  induction ss generalizing shape with
  | nil =>
    cases shape with
    | nil => rfl
    | cons d ds => simp [slicesOk] at hok
  | cons s ss ih =>
    cases shape with
    | nil => simp [slicesOk] at hok
    | cons d ds =>
      obtain ⟨hok1, hok2⟩ := slicesOk_cons.mp hok
      obtain ⟨hrs, hrss⟩ := reslicable_cons.mp hr
      simp only [sliceShape, List.zipWith_cons_cons]
      exact slicesOk_cons.mpr ⟨reslicableOk_ok hok1 hrs, ih hok2 hrss⟩

theorem reslicable_slicesOk_neg {shape : List Nat} {ss : List SliceSpec}
    (hok : slicesOk shape ss = true) (hr : reslicable ss = false) :
    slicesOk (sliceShape shape ss) ss = false := by
  induction ss generalizing shape with
  | nil => simp [reslicable] at hr
  | cons s ss ih =>
    cases shape with
    | nil => simp [slicesOk] at hok
    | cons d ds =>
      obtain ⟨hok1, hok2⟩ := slicesOk_cons.mp hok
      have hr2 : reslicableOk s = false ∨ reslicable ss = false := by
        cases hcs : reslicableOk s with
        | false => exact Or.inl rfl
        | true =>
          refine Or.inr ?_
          simpa [reslicable, List.all_cons, hcs] using hr
      simp only [sliceShape, List.zipWith_cons_cons]
      cases hres : slicesOk (SliceSpec.len d s :: List.zipWith SliceSpec.len ds ss)
          (s :: ss) with
      | false => rfl
      | true =>
        obtain ⟨h1, h2⟩ := slicesOk_cons.mp hres
        rcases hr2 with hbad | hbad
        · rw [reslicableOk_neg hok1 hbad] at h1
          cases h1
        · have h3 : slicesOk (sliceShape ds ss) ss = true := h2
          rw [ih hok2 hbad] at h3
          cases h3

theorem memB_src_pos {d : Nat} {s : SliceSpec} {j : Nat}
    (hm : SliceSpec.memB d s j = true) :
    SliceSpec.src s (SliceSpec.pos s j) = j := by
  cases s with
  | whole => rfl
  | seg a b st =>
    simp only [SliceSpec.memB, Bool.and_eq_true, decide_eq_true_eq] at hm
    obtain ⟨⟨haj, _hjb⟩, hmod⟩ := hm
    simp only [SliceSpec.src, SliceSpec.pos]
    have hd : st ∣ (j - a) := Nat.dvd_of_mod_eq_zero hmod
    rw [Nat.div_mul_cancel hd]
    omega

theorem memB_src_self {d : Nat} {s : SliceSpec} {j : Nat}
    (hm : SliceSpec.memB d s j = true) (hr : reslicableOk s = true) :
    SliceSpec.src s j = j := by
  cases s with
  | whole => rfl
  | seg a b st =>
    simp only [SliceSpec.memB, Bool.and_eq_true, decide_eq_true_eq] at hm
    obtain ⟨⟨_haj, hjb⟩, _hmod⟩ := hm
    simp only [reslicableOk, Bool.and_eq_true, Bool.or_eq_true, decide_eq_true_eq] at hr
    obtain ⟨ha0, hcase⟩ := hr
    subst ha0
    rcases hcase with h1 | h1
    · subst h1
      simp [SliceSpec.src]
    · have hj : j = 0 := by omega
      subst hj
      simp [SliceSpec.src]

theorem region_src_src {shape : List Nat} {ss : List SliceSpec} {ix : List Nat}
    (hlen : ss.length = shape.length)
    (hm : regionMem shape ss ix = true) (hr : reslicable ss = true) :
    sliceSrc ss (sliceSrc ss (regionPos ss ix)) = ix := by
  induction ss generalizing shape ix with
  | nil =>
    cases ix with
    | nil => rfl
    | cons j tl =>
      cases shape with
      | nil => simp [regionMem] at hm
      | cons d ds =>
        simp only [List.length_nil, List.length_cons] at hlen
        exact absurd hlen (by omega)
  | cons s ss ih =>
    cases shape with
    | nil =>
      simp only [List.length_cons, List.length_nil] at hlen
      exact absurd hlen (by omega)
    | cons d ds =>
      cases ix with
      | nil => simp [regionMem] at hm
      | cons j tl =>
        simp only [regionMem, List.length_cons, List.zip_cons_cons, List.all_cons,
          Bool.and_eq_true, decide_eq_true_eq] at hm
        obtain ⟨hlen2, hmb, hall⟩ := hm
        obtain ⟨hrs, hrss⟩ := reslicable_cons.mp hr
        have hm2 : regionMem ds ss tl = true := by
          simp only [regionMem, Bool.and_eq_true, decide_eq_true_eq]
          exact ⟨by omega, hall⟩
        have hlen3 : ss.length = ds.length := by
          simp only [List.length_cons] at hlen
          omega
        simp only [regionPos, sliceSrc, List.zipWith_cons_cons]
        rw [memB_src_pos hmb, memB_src_self hmb hrs]
        rw [show List.zipWith SliceSpec.src ss
          (List.zipWith SliceSpec.src ss (List.zipWith SliceSpec.pos ss tl)) = tl
          from ih hlen3 hm2 hrss]

theorem tcSliceGaxpy_reslicable (c : TContent) (ss : List SliceSpec)
    (hok : slicesOk c.shape ss = true) (hr : reslicable ss = true) :
    tcSliceGaxpy c ss 1
      (tcScale (-1) ⟨sliceShape c.shape ss, fun ix => c.val (sliceSrc ss ix)⟩) ss 1 =
    .ok ⟨c.shape, fun ix =>
      if regionMem c.shape ss ix
      then c.val ix * 1 + c.val (sliceSrc ss (sliceSrc ss (regionPos ss ix))) * (-1) * 1
      else c.val ix⟩ := by
  have hok2 : slicesOk (tcScale (-1) ⟨sliceShape c.shape ss,
      fun ix => c.val (sliceSrc ss ix)⟩).shape ss = true := by
    show slicesOk (sliceShape c.shape ss) ss = true
    exact reslicable_slicesOk hok hr
  have hsh2 : sliceShape c.shape ss = sliceShape (tcScale (-1) ⟨sliceShape c.shape ss,
      fun ix => c.val (sliceSrc ss ix)⟩).shape ss := by
    show sliceShape c.shape ss = sliceShape (sliceShape c.shape ss) ss
    exact (sliceShape_idem _ _).symm
  unfold tcSliceGaxpy
  rw [if_pos hok, if_pos hok2, if_pos hsh2]
  rfl

theorem reslicable_zero_beq (c : TContent) (ss : List SliceSpec)
    (hok : slicesOk c.shape ss = true) (hr : reslicable ss = true) :
    tcBeq ⟨c.shape, fun ix =>
      if regionMem c.shape ss ix
      then c.val ix * 1 + c.val (sliceSrc ss (sliceSrc ss (regionPos ss ix))) * (-1) * 1
      else c.val ix⟩ (zeroSliceRegion c ss) = true := by
  refine (tcBeq_iff _ _).mpr ⟨rfl, ?_⟩
  intro ix hix
  have hix2 : ix ∈ indexSpace c.shape := hix
  show (if regionMem c.shape ss ix
      then c.val ix * 1 + c.val (sliceSrc ss (sliceSrc ss (regionPos ss ix))) * (-1) * 1
      else c.val ix) =
    (if regionMem c.shape ss ix then 0 else c.val ix)
  cases hmem : regionMem c.shape ss ix with
  | false => simp [hmem]
  | true =>
    simp only [hmem, reduceIte]
    have hlen : ss.length = c.shape.length := by
      simp only [slicesOk, Bool.and_eq_true, decide_eq_true_eq] at hok
      exact hok.1
    rw [region_src_src hlen hmem hr]
    ring

/-- Counterexample for C6 as stated: a Dense handle over a shape-[4] tensor
and the perfectly valid slice [2,4) of it.  `h(s) = 0` makes a slice-sized
temporary, negates it, and then re-slices THAT temporary by the same
specification `s` on the right-hand side of the in-place add (source line
575: `_refGT.inplace_add(tmp,_s,_s)`); for a slice that does not start at 0
the re-slice is out of range for the slice-sized temporary, so the call
aborts instead of zeroing the region. -/
theorem claim_C6_counterexample :
    contentO gC6x hC6x = some tcC6x ∧
    slicesOk tcC6x.shape ssC6x = true ∧
    (sliceAssignZero (genSliceOp gC6x ssC6x) 0 hC6x).errOf = some Err.badSlice :=
  ⟨rfl, by decide, rfl⟩

theorem sliceFixR (c rc : TContent) (ss : List SliceSpec)
    (hok : slicesOk c.shape ss = true) (hr : reslicable ss = true)
    (hsr : tcSliceRead c ss = some rc) :
    ∃ z, tcSliceGaxpy c ss 1 (tcScale (-1) rc) ss 1 = .ok z ∧
      tcBeq z (zeroSliceRegion c ss) = true := by
  unfold tcSliceRead at hsr
  rw [if_pos hok] at hsr
  have hrc : (⟨sliceShape c.shape ss, fun ix => c.val (sliceSrc ss ix)⟩ : TContent) = rc := by
    injection hsr
  subst hrc
  exact ⟨_, tcSliceGaxpy_reslicable c ss hok hr, reslicable_zero_beq c ss hok hr⟩

theorem sliceFixNeg (c rc : TContent) (ss : List SliceSpec)
    (hok : slicesOk c.shape ss = true) (hr : reslicable ss = false)
    (hsr : tcSliceRead c ss = some rc) :
    tcSliceGaxpy c ss 1 (tcScale (-1) rc) ss 1 = .error .badSlice := by
  unfold tcSliceRead at hsr
  rw [if_pos hok] at hsr
  have hrc : (⟨sliceShape c.shape ss, fun ix => c.val (sliceSrc ss ix)⟩ : TContent) = rc := by
    injection hsr
  subst hrc
  have hfalse : slicesOk (tcScale (-1) (⟨sliceShape c.shape ss,
      fun ix => c.val (sliceSrc ss ix)⟩ : TContent)).shape ss = false := by
    show slicesOk (sliceShape c.shape ss) ss = false
    exact reslicable_slicesOk_neg hok hr
  unfold tcSliceGaxpy
  rw [if_pos hok, if_neg (by simp [hfalse])]

theorem genSliceOp_refGT (g : GenTensor) (ss : List SliceSpec) :
    (genSliceOp g ss).refGT = g := rfl

theorem genSliceOp_s (g : GenTensor) (ss : List SliceSpec) :
    (genSliceOp g ss).s = ss := rfl

/-- C6 amended: `h(s) = 0` asserts the assigned value is zero, builds a
slice-shaped deep temporary, negates it, and adds it back through
`_refGT.inplace_add(tmp, _s, _s)` (source line 575), which re-slices the
slice-sized temporary by `_s` itself.  For a handle of either backing kind
with an in-bounds slice list, the assignment therefore succeeds — zeroing the
addressed region and leaving every element outside it unchanged — precisely
when every per-dimension slice survives re-application to its own extraction:
the whole dimension, or a zero-based segment with unit step or selecting at
most one element (see `reslicable`).  For every other in-bounds slice list —
in particular any slice with a positive start, such as the counterexample's
[2,4) — the internal re-slice is out of range for the slice-sized temporary
and the call fails with the slice-range error instead of zeroing the
region. -/
theorem claim_C6_amended (h : Heap) (g : GenTensor) (b : Nat) (ss : List SliceSpec)
    (c : TContent) (hg : g.ptr = some b) (hc : contentO g h = some c)
    (hok : slicesOk c.shape ss = true) :
    (∀ t, h.getBack b = some (.full t) →
      (reslicable ss = true →
        (sliceAssignZero (genSliceOp g ss) 0 h).errOf = none ∧
          resContentIs (sliceAssignZero (genSliceOp g ss) 0 h) g
            (zeroSliceRegion c ss) = true) ∧
      (reslicable ss = false →
        (sliceAssignZero (genSliceOp g ss) 0 h).errOf = some Err.badSlice)) ∧
    (∀ s sv, h.getBack b = some (.low s) → h.getSep s = some sv → sv.tt ≠ TT_FULL →
      (reslicable ss = true →
        (sliceAssignZero (genSliceOp g ss) 0 h).errOf = none ∧
          resContentIs (sliceAssignZero (genSliceOp g ss) 0 h) g
            (zeroSliceRegion c ss) = true) ∧
      (reslicable ss = false →
        (sliceAssignZero (genSliceOp g ss) 0 h).errOf = some Err.badSlice)) := by
  constructor
  · intro t hb
    simp only [contentO, hg, hb] at hc
    have hblt : b < h.backs.length := getBack_lt hb
    have htlt : t < h.bufs.length := getBuf_lt hc
    obtain ⟨rc, hsr⟩ : ∃ rc, tcSliceRead c ss = some rc :=
      ⟨_, by unfold tcSliceRead; rw [if_pos hok]⟩
    have hassign : genAssignSlice (genSliceOp g ss) h =
        .ok ⟨some h.backs.length⟩
          ⟨h.bufs ++ [rc], h.seps, h.backs ++ [.full h.bufs.length]⟩ := by
      simp only [genAssignSlice, genSliceOp, hg, hb, hc, hsr, Heap.allocBuf,
        Heap.allocBack]
    have hL1 : (⟨h.bufs ++ [rc], h.seps,
          h.backs ++ [.full h.bufs.length]⟩ : Heap).getBack b = some (.full t) := by
      simp only [Heap.getBack]
      rw [getq_app_lt _ _ _ hblt]
      exact hb
    have hty : typeO g (⟨h.bufs ++ [rc], h.seps,
          h.backs ++ [.full h.bufs.length]⟩ : Heap) = some TT_FULL := by
      simp only [typeO, hg, hL1, Option.some_bind, bkTypeO]
    have hL2 : (⟨h.bufs ++ [rc], h.seps,
          h.backs ++ [.full h.bufs.length]⟩ : Heap).getBack h.backs.length =
        some (.full h.bufs.length) := by
      simp only [Heap.getBack]
      exact getq_app_len _ _
    have hL3 : (⟨h.bufs ++ [rc], h.seps,
          h.backs ++ [.full h.bufs.length]⟩ : Heap).getBuf h.bufs.length = some rc := by
      simp only [Heap.getBuf]
      exact getq_app_len _ _
    have hcopy : genCopy ⟨some h.backs.length⟩
        (⟨h.bufs ++ [rc], h.seps, h.backs ++ [.full h.bufs.length]⟩ : Heap) =
        .ok ⟨some (h.backs ++ [Backend.full h.bufs.length]).length⟩
          ⟨(h.bufs ++ [rc]) ++ [rc], h.seps,
            (h.backs ++ [.full h.bufs.length]) ++
              [.full (h.bufs ++ [rc]).length]⟩ := by
      simp only [genCopy, hL2, hL3, Heap.allocBuf, Heap.allocBack]
    have hL4 : (⟨(h.bufs ++ [rc]) ++ [rc], h.seps,
          (h.backs ++ [.full h.bufs.length]) ++
            [.full (h.bufs ++ [rc]).length]⟩ : Heap).getBack
          (h.backs ++ [Backend.full h.bufs.length]).length =
        some (.full (h.bufs ++ [rc]).length) := by
      simp only [Heap.getBack]
      exact getq_app_len _ _
    have hL5 : (⟨(h.bufs ++ [rc]) ++ [rc], h.seps,
          (h.backs ++ [.full h.bufs.length]) ++
            [.full (h.bufs ++ [rc]).length]⟩ : Heap).getBuf
          (h.bufs ++ [rc]).length = some rc := by
      simp only [Heap.getBuf]
      exact getq_app_len _ _
    have hscale := genScale_full
      (h := (⟨(h.bufs ++ [rc]) ++ [rc], h.seps,
        (h.backs ++ [.full h.bufs.length]) ++
          [.full (h.bufs ++ [rc]).length]⟩ : Heap)) rfl hL4 hL5 (-1)
    have hL6 : ((⟨(h.bufs ++ [rc]) ++ [rc], h.seps,
          (h.backs ++ [.full h.bufs.length]) ++
            [.full (h.bufs ++ [rc]).length]⟩ : Heap).setBuf
          (h.bufs ++ [rc]).length (tcScale (-1) rc)).getBack b = some (.full t) := by
      rw [getBack_setBuf]
      simp only [Heap.getBack]
      rw [getq_app_lt _ _ _ (show b < (h.backs ++ [Backend.full h.bufs.length]).length by
        simp only [List.length_append, List.length_cons, List.length_nil]
        omega)]
      rw [getq_app_lt _ _ _ hblt]
      exact hb
    have hL7 : ((⟨(h.bufs ++ [rc]) ++ [rc], h.seps,
          (h.backs ++ [.full h.bufs.length]) ++
            [.full (h.bufs ++ [rc]).length]⟩ : Heap).setBuf
          (h.bufs ++ [rc]).length (tcScale (-1) rc)).getBack
          (h.backs ++ [Backend.full h.bufs.length]).length =
        some (.full (h.bufs ++ [rc]).length) := by
      simp only [getBack_setBuf]
      exact hL4
    have hL8 : ((⟨(h.bufs ++ [rc]) ++ [rc], h.seps,
          (h.backs ++ [.full h.bufs.length]) ++
            [.full (h.bufs ++ [rc]).length]⟩ : Heap).setBuf
          (h.bufs ++ [rc]).length (tcScale (-1) rc)).getBuf t = some c := by
      simp only [Heap.setBuf, Heap.getBuf]
      rw [getq_set_ne _ _ _ _ (show (h.bufs ++ [rc]).length ≠ t by
        simp only [List.length_append, List.length_cons, List.length_nil]
        omega)]
      rw [getq_app_lt _ _ _ (show t < (h.bufs ++ [rc]).length by
        simp only [List.length_append, List.length_cons, List.length_nil]
        omega)]
      rw [getq_app_lt _ _ _ htlt]
      exact hc
    have hL9 : ((⟨(h.bufs ++ [rc]) ++ [rc], h.seps,
          (h.backs ++ [.full h.bufs.length]) ++
            [.full (h.bufs ++ [rc]).length]⟩ : Heap).setBuf
          (h.bufs ++ [rc]).length (tcScale (-1) rc)).getBuf
          (h.bufs ++ [rc]).length = some (tcScale (-1) rc) := by
      simp only [Heap.setBuf, Heap.getBuf]
      apply getq_set_self
      simp only [List.length_append, List.length_cons, List.length_nil]
      omega
    constructor
    · intro hr
      obtain ⟨z, hz, hzb⟩ := sliceFixR c rc ss hok hr hsr
      have hinplace : genInplaceAdd g ⟨some (h.backs ++ [Backend.full h.bufs.length]).length⟩
          ss ss ((⟨(h.bufs ++ [rc]) ++ [rc], h.seps,
            (h.backs ++ [.full h.bufs.length]) ++
              [.full (h.bufs ++ [rc]).length]⟩ : Heap).setBuf
            (h.bufs ++ [rc]).length (tcScale (-1) rc)) =
          .ok () (((⟨(h.bufs ++ [rc]) ++ [rc], h.seps,
            (h.backs ++ [.full h.bufs.length]) ++
              [.full (h.bufs ++ [rc]).length]⟩ : Heap).setBuf
            (h.bufs ++ [rc]).length (tcScale (-1) rc)).setBuf t z) := by
        simp only [genInplaceAdd, hg, hL6, hL7, bkTypeO, reduceIte, hL8, hL9, hz]
      have hfin : sliceAssignZero (genSliceOp g ss) 0 h =
          .ok () (((⟨(h.bufs ++ [rc]) ++ [rc], h.seps,
            (h.backs ++ [.full h.bufs.length]) ++
              [.full (h.bufs ++ [rc]).length]⟩ : Heap).setBuf
            (h.bufs ++ [rc]).length (tcScale (-1) rc)).setBuf t z) := by
        simp only [sliceAssignZero, if_pos (show (0 : Val) = 0 from rfl), if_true]
        simp only [genSliceOp_refGT, genSliceOp_s, hassign, hty, reduceIte, hcopy,
          hscale, hinplace]
      refine ⟨by simp [hfin, Res.errOf], ?_⟩
      simp only [resContentIs, hfin, contentIs, contentO, hg, getBack_setBuf, hL6]
      have hL11 : ((((⟨(h.bufs ++ [rc]) ++ [rc], h.seps,
            (h.backs ++ [.full h.bufs.length]) ++
              [.full (h.bufs ++ [rc]).length]⟩ : Heap).setBuf
            (h.bufs ++ [rc]).length (tcScale (-1) rc)).setBuf t z)).getBuf t = some z := by
        simp only [Heap.setBuf, Heap.getBuf]
        apply getq_set_self
        simp only [List.length_set, List.length_append, List.length_cons, List.length_nil]
        omega
      simp only [Heap.setBuf, Heap.getBuf] at hL11
      simp only [Heap.setBuf, Heap.getBuf, hL11, hzb]
    · intro hr
      have hz := sliceFixNeg c rc ss hok hr hsr
      have hinplaceN : genInplaceAdd g
          ⟨some (h.backs ++ [Backend.full h.bufs.length]).length⟩
          ss ss ((⟨(h.bufs ++ [rc]) ++ [rc], h.seps,
            (h.backs ++ [.full h.bufs.length]) ++
              [.full (h.bufs ++ [rc]).length]⟩ : Heap).setBuf
            (h.bufs ++ [rc]).length (tcScale (-1) rc)) =
          .err .badSlice ((⟨(h.bufs ++ [rc]) ++ [rc], h.seps,
            (h.backs ++ [.full h.bufs.length]) ++
              [.full (h.bufs ++ [rc]).length]⟩ : Heap).setBuf
            (h.bufs ++ [rc]).length (tcScale (-1) rc)) := by
        simp only [genInplaceAdd, hg, hL6, hL7, bkTypeO, reduceIte, hL8, hL9, hz]
      have hfinN : sliceAssignZero (genSliceOp g ss) 0 h =
          .err .badSlice ((⟨(h.bufs ++ [rc]) ++ [rc], h.seps,
            (h.backs ++ [.full h.bufs.length]) ++
              [.full (h.bufs ++ [rc]).length]⟩ : Heap).setBuf
            (h.bufs ++ [rc]).length (tcScale (-1) rc)) := by
        simp only [sliceAssignZero, if_pos (show (0 : Val) = 0 from rfl), if_true]
        simp only [genSliceOp_refGT, genSliceOp_s, hassign, hty, reduceIte, hcopy,
          hscale, hinplaceN]
      simp [hfinN, Res.errOf]
  · intro s sv hb hs hne
    simp only [contentO, hg, hb, hs, Option.map_some', Option.some.injEq] at hc
    subst hc
    have hblt : b < h.backs.length := getBack_lt hb
    have hslt : s < h.seps.length := getSep_lt hs
    obtain ⟨rc, hsr⟩ : ∃ rc, tcSliceRead sv.content ss = some rc :=
      ⟨_, by unfold tcSliceRead; rw [if_pos hok]⟩
    have hassign : genAssignSlice (genSliceOp g ss) h =
        .ok ⟨some h.backs.length⟩
          ⟨h.bufs, h.seps ++ [⟨sv.tt, sv.valid, rc⟩],
            h.backs ++ [.low h.seps.length]⟩ := by
      simp only [genAssignSlice, genSliceOp, hg, hb, hs, hsr, Heap.allocSep,
        Heap.allocBack]
    have hL1 : (⟨h.bufs, h.seps ++ [⟨sv.tt, sv.valid, rc⟩],
          h.backs ++ [.low h.seps.length]⟩ : Heap).getBack b = some (.low s) := by
      simp only [Heap.getBack]
      rw [getq_app_lt _ _ _ hblt]
      exact hb
    have hL2 : (⟨h.bufs, h.seps ++ [⟨sv.tt, sv.valid, rc⟩],
          h.backs ++ [.low h.seps.length]⟩ : Heap).getSep s = some sv := by
      simp only [Heap.getSep]
      rw [getq_app_lt _ _ _ hslt]
      exact hs
    have hty : typeO g (⟨h.bufs, h.seps ++ [⟨sv.tt, sv.valid, rc⟩],
          h.backs ++ [.low h.seps.length]⟩ : Heap) = some sv.tt := by
      simp only [typeO, hg, hL1, Option.some_bind, bkTypeO, hL2, Option.map_some']
    have hL3 : (⟨h.bufs, h.seps ++ [⟨sv.tt, sv.valid, rc⟩],
          h.backs ++ [.low h.seps.length]⟩ : Heap).getBack h.backs.length =
        some (.low h.seps.length) := by
      simp only [Heap.getBack]
      exact getq_app_len _ _
    have hL4 : (⟨h.bufs, h.seps ++ [⟨sv.tt, sv.valid, rc⟩],
          h.backs ++ [.low h.seps.length]⟩ : Heap).getSep h.seps.length =
        some ⟨sv.tt, sv.valid, rc⟩ := by
      simp only [Heap.getSep]
      exact getq_app_len _ _
    have hscale := genScale_low
      (h := (⟨h.bufs, h.seps ++ [⟨sv.tt, sv.valid, rc⟩],
        h.backs ++ [.low h.seps.length]⟩ : Heap)) rfl hL3 hL4 (-1)
    have hL5 : ((⟨h.bufs, h.seps ++ [⟨sv.tt, sv.valid, rc⟩],
          h.backs ++ [.low h.seps.length]⟩ : Heap).setSep h.seps.length
            ⟨sv.tt, sv.valid, tcScale (-1) rc⟩).getBack b = some (.low s) := by
      simp only [getBack_setSep]
      exact hL1
    have hL6 : ((⟨h.bufs, h.seps ++ [⟨sv.tt, sv.valid, rc⟩],
          h.backs ++ [.low h.seps.length]⟩ : Heap).setSep h.seps.length
            ⟨sv.tt, sv.valid, tcScale (-1) rc⟩).getSep s = some sv := by
      simp only [Heap.setSep, Heap.getSep]
      rw [getq_set_ne _ _ _ _ (Nat.ne_of_gt hslt)]
      rw [getq_app_lt _ _ _ hslt]
      exact hs
    have hL7 : ((⟨h.bufs, h.seps ++ [⟨sv.tt, sv.valid, rc⟩],
          h.backs ++ [.low h.seps.length]⟩ : Heap).setSep h.seps.length
            ⟨sv.tt, sv.valid, tcScale (-1) rc⟩).getBack h.backs.length =
        some (.low h.seps.length) := by
      simp only [getBack_setSep]
      exact hL3
    have hL8 : ((⟨h.bufs, h.seps ++ [⟨sv.tt, sv.valid, rc⟩],
          h.backs ++ [.low h.seps.length]⟩ : Heap).setSep h.seps.length
            ⟨sv.tt, sv.valid, tcScale (-1) rc⟩).getSep h.seps.length =
        some ⟨sv.tt, sv.valid, tcScale (-1) rc⟩ := by
      simp only [Heap.setSep, Heap.getSep]
      apply getq_set_self
      simp only [List.length_append, List.length_cons, List.length_nil]
      omega
    constructor
    · intro hr
      obtain ⟨z, hz, hzb⟩ := sliceFixR sv.content rc ss hok hr hsr
      have hinplace : genInplaceAdd g ⟨some h.backs.length⟩ ss ss
          ((⟨h.bufs, h.seps ++ [⟨sv.tt, sv.valid, rc⟩],
            h.backs ++ [.low h.seps.length]⟩ : Heap).setSep h.seps.length
              ⟨sv.tt, sv.valid, tcScale (-1) rc⟩) =
          .ok () (((⟨h.bufs, h.seps ++ [⟨sv.tt, sv.valid, rc⟩],
            h.backs ++ [.low h.seps.length]⟩ : Heap).setSep h.seps.length
              ⟨sv.tt, sv.valid, tcScale (-1) rc⟩).setSep s ⟨sv.tt, sv.valid, z⟩) := by
        simp only [genInplaceAdd, hg, hL5, hL7, bkTypeO, hL8, Option.map_some',
          hL6, if_pos (rfl : sv.tt = sv.tt), if_true, hz]
      have hfin : sliceAssignZero (genSliceOp g ss) 0 h =
          .ok () (((⟨h.bufs, h.seps ++ [⟨sv.tt, sv.valid, rc⟩],
            h.backs ++ [.low h.seps.length]⟩ : Heap).setSep h.seps.length
              ⟨sv.tt, sv.valid, tcScale (-1) rc⟩).setSep s ⟨sv.tt, sv.valid, z⟩) := by
        simp only [sliceAssignZero, if_pos (show (0 : Val) = 0 from rfl), if_true]
        simp only [genSliceOp_refGT, genSliceOp_s, hassign, hty, if_neg hne, hscale,
          hinplace]
      refine ⟨by simp [hfin, Res.errOf], ?_⟩
      simp only [resContentIs, hfin, contentIs, contentO, hg, getBack_setSep, hL5]
      have hL9 : (((⟨h.bufs, h.seps ++ [⟨sv.tt, sv.valid, rc⟩],
            h.backs ++ [.low h.seps.length]⟩ : Heap).setSep h.seps.length
              ⟨sv.tt, sv.valid, tcScale (-1) rc⟩).setSep s ⟨sv.tt, sv.valid, z⟩).getSep s =
          some ⟨sv.tt, sv.valid, z⟩ := by
        simp only [Heap.setSep, Heap.getSep]
        apply getq_set_self
        simp only [List.length_set, List.length_append, List.length_cons, List.length_nil]
        omega
      simp only [Heap.setSep, Heap.getSep] at hL9
      simp only [Heap.setSep, Heap.getSep, hL9, Option.map_some', hzb]
    · intro hr
      have hz := sliceFixNeg sv.content rc ss hok hr hsr
      have hinplaceN : genInplaceAdd g ⟨some h.backs.length⟩ ss ss
          ((⟨h.bufs, h.seps ++ [⟨sv.tt, sv.valid, rc⟩],
            h.backs ++ [.low h.seps.length]⟩ : Heap).setSep h.seps.length
              ⟨sv.tt, sv.valid, tcScale (-1) rc⟩) =
          .err .badSlice ((⟨h.bufs, h.seps ++ [⟨sv.tt, sv.valid, rc⟩],
            h.backs ++ [.low h.seps.length]⟩ : Heap).setSep h.seps.length
              ⟨sv.tt, sv.valid, tcScale (-1) rc⟩) := by
        simp only [genInplaceAdd, hg, hL5, hL7, bkTypeO, hL8, Option.map_some',
          hL6, if_pos (rfl : sv.tt = sv.tt), if_true, hz]
      have hfinN : sliceAssignZero (genSliceOp g ss) 0 h =
          .err .badSlice ((⟨h.bufs, h.seps ++ [⟨sv.tt, sv.valid, rc⟩],
            h.backs ++ [.low h.seps.length]⟩ : Heap).setSep h.seps.length
              ⟨sv.tt, sv.valid, tcScale (-1) rc⟩) := by
        simp only [sliceAssignZero, if_pos (show (0 : Val) = 0 from rfl), if_true]
        simp only [genSliceOp_refGT, genSliceOp_s, hassign, hty, if_neg hne, hscale,
          hinplaceN]
      simp [hfinN, Res.errOf]

/-- Witness for C6 amended: a Dense shape-[4] handle with the in-bounds
slice [0,1) of step 2 — a slice that is neither whole-dimension nor unit-step
anchored, yet survives re-application since it selects a single element; the
assignment succeeds and zeroes the addressed cell. -/
theorem claim_C6_amended_witness :
    (gC6w.ptr = some 0 ∧ contentO gC6w hC6w = some tcC6w ∧
      slicesOk tcC6w.shape ssC6w = true ∧ reslicable ssC6w = true ∧
      hC6w.getBack 0 = some (.full 0)) ∧
    ((sliceAssignZero (genSliceOp gC6w ssC6w) 0 hC6w).errOf = none ∧
      resContentIs (sliceAssignZero (genSliceOp gC6w ssC6w) 0 hC6w) gC6w
        (zeroSliceRegion tcC6w ssC6w) = true) :=
  ⟨⟨rfl, rfl, by decide, by decide, rfl⟩,
    ((claim_C6_amended hC6w gC6w 0 ssC6w tcC6w rfl rfl (by decide)).1 0 rfl).1
      (by decide)⟩
